import Mathlib

/-!
Verification development for the customer-feedback-tracker multi-agent
repository.  The definitions below are a shallow embedding of the two
metrics accumulators (`src/core/metrics_utils.py` and the `MetricsTracker`
class of `src/core/system_runner2.py`), of the tool-call execution loop
`run_agent`, and of the pipeline orchestrator `run_system` from
`src/core/system_runner2.py`.  Python dictionaries keyed by agent name are
modelled by association lists (for the open-keyed tracker of
`metrics_utils.py`) and by a fixed four-bucket structure (for the
fixed-keyed tracker of `system_runner2.py`).  Timestamps are abstract
natural numbers supplied as parameters; the model loop is driven by a
script `Nat -> ModelMsg` giving the model reply of each iteration and a
tool environment resolving tool names, with a fuel parameter standing for
the number of loop iterations the (uncapped) Python `while True` loop is
allowed to perform.
-/

/-- Per-agent counters, mirroring the dataclass `AgentMetrics` of
`src/core/metrics_utils.py` (all fields default to 0 there). -/
structure AgentMetrics where
  api_calls : Nat
  input_tokens : Nat
  output_tokens : Nat
  total_tokens : Nat
  tool_calls : Nat
  iterations : Nat
  errors : Nat
deriving DecidableEq, Repr

/-- The all-zero `AgentMetrics()` value. -/
def AgentMetrics.zero : AgentMetrics :=
  { api_calls := 0, input_tokens := 0, output_tokens := 0, total_tokens := 0,
    tool_calls := 0, iterations := 0, errors := 0 }

/-- `AgentMetrics.add_api_call` from `metrics_utils.py` lines 38-43. -/
def AgentMetrics.add_api_call (m : AgentMetrics) (input_tokens output_tokens : Nat) :
    AgentMetrics :=
  { m with api_calls := m.api_calls + 1,
           input_tokens := m.input_tokens + input_tokens,
           output_tokens := m.output_tokens + output_tokens,
           total_tokens := m.total_tokens + (input_tokens + output_tokens) }

/-- `AgentMetrics.add_tool_call` from `metrics_utils.py` lines 45-47. -/
def AgentMetrics.add_tool_call (m : AgentMetrics) : AgentMetrics :=
  { m with tool_calls := m.tool_calls + 1 }

/-- `AgentMetrics.add_iteration` from `metrics_utils.py` lines 49-51. -/
def AgentMetrics.add_iteration (m : AgentMetrics) : AgentMetrics :=
  { m with iterations := m.iterations + 1 }

/-- `AgentMetrics.add_error` from `metrics_utils.py` lines 53-55. -/
def AgentMetrics.add_error (m : AgentMetrics) : AgentMetrics :=
  { m with errors := m.errors + 1 }

/-- Pointwise sum of two counter records (used to state the
"total equals pointwise sum" invariant). -/
def AgentMetrics.addM (a b : AgentMetrics) : AgentMetrics :=
  { api_calls := a.api_calls + b.api_calls,
    input_tokens := a.input_tokens + b.input_tokens,
    output_tokens := a.output_tokens + b.output_tokens,
    total_tokens := a.total_tokens + b.total_tokens,
    tool_calls := a.tool_calls + b.tool_calls,
    iterations := a.iterations + b.iterations,
    errors := a.errors + b.errors }

/-- The counter increment performed by one `add_api_call`. -/
def apiDelta (input_tokens output_tokens : Nat) : AgentMetrics :=
  { api_calls := 1, input_tokens := input_tokens, output_tokens := output_tokens,
    total_tokens := input_tokens + output_tokens,
    tool_calls := 0, iterations := 0, errors := 0 }

/-- The counter increment performed by one `add_tool_call`. -/
def toolDelta : AgentMetrics :=
  { AgentMetrics.zero with tool_calls := 1 }

/-- The counter increment performed by one `add_iteration`. -/
def iterDelta : AgentMetrics :=
  { AgentMetrics.zero with iterations := 1 }

/-- The counter increment performed by one `add_error`. -/
def errDelta : AgentMetrics :=
  { AgentMetrics.zero with errors := 1 }

/-! ### Association-list model of the Python `dict` keyed by agent name -/

/-- Lookup in an association list: the Python `self.metrics[agent_name]`
read (and the `agent_name in self.metrics` test via `Option.isSome`). -/
def findA {α : Type} : List (String × α) → String → Option α
  | [], _ => none
  | (k, v) :: rest, a => if k = a then some v else findA rest a

/-- In-place update of one dict entry, the Python
`self.metrics[agent_name].add_...` mutation. -/
def updA {α : Type} : List (String × α) → String → (α → α) → List (String × α)
  | [], _, _ => []
  | (k, v) :: rest, a, f =>
      if k = a then (k, f v) :: updA rest a f else (k, v) :: updA rest a f

/-- The list of keys of the dict. -/
def keysA {α : Type} (m : List (String × α)) : List String :=
  m.map Prod.fst

/-- Pointwise sum of all buckets whose key is not `"total"`. -/
def sumNT : List (String × AgentMetrics) → AgentMetrics
  | [] => AgentMetrics.zero
  | (k, v) :: rest =>
      if k = "total" then sumNT rest else AgentMetrics.addM v (sumNT rest)

/-! ### `MetricsTracker` of `src/core/metrics_utils.py` -/

/-- The tracker state of `metrics_utils.MetricsTracker`: an open-keyed
dict of buckets plus session bookkeeping (timestamps are abstract `Nat`
values, the session id an abstract string). -/
structure MetricsTracker where
  metrics : List (String × AgentMetrics)
  start_time : Option Nat
  end_time : Option Nat
  session_id : String
deriving DecidableEq, Repr

/-- `MetricsTracker.__init__` with the default agent list
`['planner', 'developer', 'tester']` (lines 75-92): one zeroed bucket per
default agent, then the `'total'` bucket. -/
def MetricsTracker.new (sid : String) : MetricsTracker :=
  { metrics := [("planner", AgentMetrics.zero), ("developer", AgentMetrics.zero),
                ("tester", AgentMetrics.zero), ("total", AgentMetrics.zero)],
    start_time := none, end_time := none, session_id := sid }

/-- `MetricsTracker.record_api_call` (lines 111-131): auto-creates a
zeroed bucket for an unknown agent name, then increments that agent's
bucket and the `'total'` bucket. -/
def MetricsTracker.record_api_call (t : MetricsTracker) (agent_name : String)
    (input_tokens output_tokens : Nat) : MetricsTracker :=
  let t1 :=
    if (findA t.metrics agent_name).isNone then
      { t with metrics := t.metrics ++ [(agent_name, AgentMetrics.zero)] }
    else t
  let m2 := updA t1.metrics agent_name
    (fun b => b.add_api_call input_tokens output_tokens)
  let m3 := updA m2 "total" (fun b => b.add_api_call input_tokens output_tokens)
  { t1 with metrics := m3 }

/-- `MetricsTracker.record_tool_call` (lines 133-151): returns without
touching anything when the agent name has no bucket; otherwise increments
the agent's and the total's `tool_calls` counter.  The `tool_name`
argument is only logged by the source. -/
def MetricsTracker.record_tool_call (t : MetricsTracker) (agent_name : String)
    (tool_name : String) : MetricsTracker :=
  if (findA t.metrics agent_name).isNone then t
  else
    let m2 := updA t.metrics agent_name AgentMetrics.add_tool_call
    let m3 := updA m2 "total" AgentMetrics.add_tool_call
    { t with metrics := m3 }

/-- `MetricsTracker.record_iteration` (lines 153-159): no-op for an
unknown agent name, otherwise increments agent and total. -/
def MetricsTracker.record_iteration (t : MetricsTracker) (agent_name : String) :
    MetricsTracker :=
  if (findA t.metrics agent_name).isNone then t
  else
    let m2 := updA t.metrics agent_name AgentMetrics.add_iteration
    let m3 := updA m2 "total" AgentMetrics.add_iteration
    { t with metrics := m3 }

/-- `MetricsTracker.record_error` (lines 161-169): no-op for an unknown
agent name, otherwise increments agent and total.  The `error_msg`
argument is only logged by the source. -/
def MetricsTracker.record_error (t : MetricsTracker) (agent_name : String)
    (error_msg : String) : MetricsTracker :=
  if (findA t.metrics agent_name).isNone then t
  else
    let m2 := updA t.metrics agent_name AgentMetrics.add_error
    let m3 := updA m2 "total" AgentMetrics.add_error
    { t with metrics := m3 }

/-- `MetricsTracker.reset` (lines 268-283): zeroes every existing bucket
in place (keys are kept), clears both timestamps, refreshes the session
id. -/
def MetricsTracker.reset (t : MetricsTracker) (new_sid : String) : MetricsTracker :=
  { metrics := t.metrics.map (fun p => (p.1, AgentMetrics.zero)),
    start_time := none, end_time := none, session_id := new_sid }

/-- One call of a `record_*` method of `metrics_utils.MetricsTracker`,
with its agent-name and payload arguments. -/
inductive MOp where
  | api_call (agent : String) (input_tokens output_tokens : Nat)
  | tool_call (agent : String) (tool : String)
  | iteration (agent : String)
  | error (agent : String) (msg : String)
deriving DecidableEq, Repr

/-- The agent-name argument of a `record_*` call. -/
def MOp.agentName : MOp → String
  | .api_call a _ _ => a
  | .tool_call a _ => a
  | .iteration a => a
  | .error a _ => a

/-- Dispatch one `record_*` call on the tracker. -/
def applyOp (t : MetricsTracker) : MOp → MetricsTracker
  | .api_call a i o => t.record_api_call a i o
  | .tool_call a tn => t.record_tool_call a tn
  | .iteration a => t.record_iteration a
  | .error a msg => t.record_error a msg

/-- Apply an interleaving of `record_*` calls in order. -/
def applyOps (t : MetricsTracker) (ops : List MOp) : MetricsTracker :=
  ops.foldl applyOp t

/-- Invariant of the metrics dict: keys are distinct (as in a Python
dict) and the `'total'` bucket equals the pointwise sum of all non-total
buckets. -/
def metricsInv (m : List (String × AgentMetrics)) : Prop :=
  (keysA m).Nodup ∧ findA m "total" = some (sumNT m)

/-- A bucket's running token total is consistent:
`total_tokens = input_tokens + output_tokens`. -/
def tokOk (b : AgentMetrics) : Prop :=
  b.total_tokens = b.input_tokens + b.output_tokens

/-- Every bucket of the dict is token-consistent. -/
def allTok (m : List (String × AgentMetrics)) : Prop :=
  ∀ p ∈ m, tokOk p.2

/-! ### `MetricsTracker` of `src/core/system_runner2.py` (fixed four buckets) -/

/-- One bucket of the `system_runner2.MetricsTracker` dict: the inner
dict literal of lines 42-45 (note: no `errors` field there). -/
structure AgentStats where
  api_calls : Nat
  input_tokens : Nat
  output_tokens : Nat
  total_tokens : Nat
  tool_calls : Nat
  iterations : Nat
deriving DecidableEq, Repr

/-- The all-zero bucket of the constructor's dict literal. -/
def AgentStats.zero : AgentStats :=
  { api_calls := 0, input_tokens := 0, output_tokens := 0, total_tokens := 0,
    tool_calls := 0, iterations := 0 }

/-- The `system_runner2.MetricsTracker` state: its `self.metrics` dict
has exactly the four fixed keys planner/developer/tester/total, so it is
modelled as a four-field structure; timestamps are abstract `Nat`
values. -/
structure MetricsTracker2 where
  planner : AgentStats
  developer : AgentStats
  tester : AgentStats
  total : AgentStats
  start_time : Option Nat
  end_time : Option Nat
deriving DecidableEq, Repr

/-- `MetricsTracker2.__init__` (lines 40-48): all four buckets zero, no
timestamps. -/
def MetricsTracker2.new : MetricsTracker2 :=
  { planner := AgentStats.zero, developer := AgentStats.zero,
    tester := AgentStats.zero, total := AgentStats.zero,
    start_time := none, end_time := none }

/-- Dict lookup `self.metrics[name]` of the fixed-keyed dict (`none`
models `name not in self.metrics`). -/
def MetricsTracker2.getB (t : MetricsTracker2) (name : String) : Option AgentStats :=
  if name = "planner" then some t.planner
  else if name = "developer" then some t.developer
  else if name = "tester" then some t.tester
  else if name = "total" then some t.total
  else none

/-- Dict entry replacement `self.metrics[name] = b` of the fixed-keyed
dict (no-op for a key outside the four, which never happens in the
source). -/
def MetricsTracker2.setB (t : MetricsTracker2) (name : String) (b : AgentStats) :
    MetricsTracker2 :=
  if name = "planner" then { t with planner := b }
  else if name = "developer" then { t with developer := b }
  else if name = "tester" then { t with tester := b }
  else if name = "total" then { t with total := b }
  else t

/-- `MetricsTracker2.start_tracking` (lines 50-53). -/
def MetricsTracker2.start_tracking (t : MetricsTracker2) (now : Nat) :
    MetricsTracker2 :=
  { t with start_time := some now }

/-- `MetricsTracker2.end_tracking` (lines 55-59). -/
def MetricsTracker2.end_tracking (t : MetricsTracker2) (now : Nat) :
    MetricsTracker2 :=
  { t with end_time := some now }

/-- `MetricsTracker2.record_api_call` (lines 61-78): early return for an
unknown agent name, otherwise increment the agent's bucket and then the
`'total'` bucket. -/
def MetricsTracker2.record_api_call (t : MetricsTracker2) (agent_name : String)
    (input_tokens output_tokens : Nat) : MetricsTracker2 :=
  match t.getB agent_name with
  | none => t
  | some b =>
    let t1 := t.setB agent_name
      { b with api_calls := b.api_calls + 1,
               input_tokens := b.input_tokens + input_tokens,
               output_tokens := b.output_tokens + output_tokens,
               total_tokens := b.total_tokens + (input_tokens + output_tokens) }
    match t1.getB "total" with
    | none => t1
    | some bt =>
      t1.setB "total"
        { bt with api_calls := bt.api_calls + 1,
                  input_tokens := bt.input_tokens + input_tokens,
                  output_tokens := bt.output_tokens + output_tokens,
                  total_tokens := bt.total_tokens + (input_tokens + output_tokens) }

/-- `MetricsTracker2.record_tool_call` (lines 80-85). -/
def MetricsTracker2.record_tool_call (t : MetricsTracker2) (agent_name : String) :
    MetricsTracker2 :=
  match t.getB agent_name with
  | none => t
  | some b =>
    let t1 := t.setB agent_name { b with tool_calls := b.tool_calls + 1 }
    match t1.getB "total" with
    | none => t1
    | some bt => t1.setB "total" { bt with tool_calls := bt.tool_calls + 1 }

/-- `MetricsTracker2.record_iteration` (lines 87-92). -/
def MetricsTracker2.record_iteration (t : MetricsTracker2) (agent_name : String) :
    MetricsTracker2 :=
  match t.getB agent_name with
  | none => t
  | some b =>
    let t1 := t.setB agent_name { b with iterations := b.iterations + 1 }
    match t1.getB "total" with
    | none => t1
    | some bt => t1.setB "total" { bt with iterations := bt.iterations + 1 }

/-- The `api_calls` counter of one bucket (0 for an unknown name). -/
def bApi (t : MetricsTracker2) (name : String) : Nat :=
  match t.getB name with
  | some b => b.api_calls
  | none => 0

/-- The `tool_calls` counter of one bucket (0 for an unknown name). -/
def bTool (t : MetricsTracker2) (name : String) : Nat :=
  match t.getB name with
  | some b => b.tool_calls
  | none => 0

/-- The `iterations` counter of one bucket (0 for an unknown name). -/
def bIter (t : MetricsTracker2) (name : String) : Nat :=
  match t.getB name with
  | some b => b.iterations
  | none => 0

/-- The three pipeline agent names (all valid keys distinct from
`'total'`). -/
def isStageAgent (a : String) : Prop :=
  a = "planner" ∨ a = "developer" ∨ a = "tester"

/-- `n` successive `record_tool_call` invocations for the same agent (the
per-request recording inside one tool-dispatch pass). -/
def recordN (t : MetricsTracker2) (a : String) : Nat → MetricsTracker2
  | 0 => t
  | k + 1 => recordN (t.record_tool_call a) a k

/-! ### The tool-call execution loop `run_agent` of `src/core/system_runner2.py` -/

/-- One tool-call request carried by an assistant turn
(`tool_call.get('name')`, `.get('args')`, `.get('id')`; arguments are
kept abstract as a string). -/
structure ToolCall where
  name : String
  args : String
  id : String
deriving DecidableEq, Repr

/-- Result of executing one tool: a returned value or a raised
exception. -/
inductive ToolRes where
  | ok (out : String)
  | exn (err : String)
deriving DecidableEq, Repr

/-- The message the model returns for one `agent.ainvoke` call
(`result["messages"][-1]`): an assistant turn carrying its content and a
(possibly empty) list of tool calls, or an old-style `ToolMessage` last
message (the `elif isinstance(last_msg, ToolMessage)` branch of lines
268-295). -/
inductive ModelMsg where
  | assistant (content : String) (tool_calls : List ToolCall)
  | toolMsg (name : String) (args : String) (content : String)
deriving DecidableEq, Repr

/-- An entry of the `messages` list.  The loop only ever appends
`ToolMessage`s: `Msg.tool` carries content and `tool_call_id` (line
259-264), `Msg.toolN` carries a name and content (lines 289-294). -/
inductive Msg where
  | system (content : String)
  | human (content : String)
  | tool (content : String) (tool_call_id : String)
  | toolN (name : String) (content : String)
deriving DecidableEq, Repr

/-- `str(m.content)` of a message. -/
def msgContent : Msg → String
  | .system c => c
  | .human c => c
  | .tool c _ => c
  | .toolN _ c => c

/-- `sum(len(str(m.content)) // 4 for m in messages)`, the input-token
estimate of line 215. -/
def tokenSum (msgs : List Msg) : Nat :=
  (msgs.map (fun m => (msgContent m).length / 4)).sum

/-- The two fatal loop errors raised by `run_agent`: the
`RuntimeError(f"Unknown tool: ...")` of lines 241-243 and a re-raised
tool-execution exception of lines 253-256. -/
inductive AgentErr where
  | unknownTool (name : String)
  | toolExec (err : String)
deriving DecidableEq, Repr

/-- The `final_response` dict built at lines 304-311. -/
structure AgentResult where
  raw : String
  iterations : Nat
  tool_calls : Nat
  agent : String
deriving DecidableEq, Repr

/-- The mutable state of one `run_agent` invocation: the `messages`
list, the two local counters, the (global in the source, threaded here)
metrics tracker, and a ghost trace listing each `tool_fn.ainvoke`
execution `(name, args)` in order, recorded for observation only. -/
structure LoopSt where
  messages : List Msg
  tool_calls_count : Nat
  iteration_count : Nat
  tracker : MetricsTracker2
  trace : List (String × String)
deriving DecidableEq, Repr

/-- Outcome of the inner `for tool_call in last_msg.tool_calls` pass. -/
inductive StepOut where
  | ok (st : LoopSt)
  | err (e : AgentErr) (st : LoopSt)
deriving DecidableEq, Repr

/-- Outcome of the whole loop: a normal return (`Done`), a raised
exception, or fuel exhaustion (the Python loop is still running). -/
inductive RunOut where
  | done (res : AgentResult) (st : LoopSt)
  | fail (e : AgentErr) (st : LoopSt)
  | spent (st : LoopSt)
deriving DecidableEq, Repr

/-- The state change of one `Thinking` step (lines 210-222): increment
`iteration_count`, record the iteration metric, and record one API call
with the input-token estimate over the current messages and the
output-token estimate over the new turn's content. -/
def postModel (st : LoopSt) (agent_name : String) (content : String) : LoopSt :=
  { st with iteration_count := st.iteration_count + 1,
            tracker := ((st.tracker.record_iteration agent_name).record_api_call
              agent_name (tokenSum st.messages) (content.length / 4)) }

/-- The `for tool_call in last_msg.tool_calls` pass (lines 226-264):
increment the counter and the tool-call metric, resolve the tool name
(`tools.get`), raise `Unknown tool` if unresolved, execute, re-raise an
execution failure, else append one `ToolMessage` correlated by
`call_id` and continue with the next request. -/
def processToolCalls (tools : String → Option (String → ToolRes))
    (agent_name : String) : List ToolCall → LoopSt → StepOut
  | [], st => StepOut.ok st
  | tc :: rest, st =>
    let st1 := { st with tool_calls_count := st.tool_calls_count + 1,
                         tracker := st.tracker.record_tool_call agent_name }
    match tools tc.name with
    | none => StepOut.err (AgentErr.unknownTool tc.name) st1
    | some f =>
      match f tc.args with
      | ToolRes.exn e => StepOut.err (AgentErr.toolExec e) st1
      | ToolRes.ok outv =>
        processToolCalls tools agent_name rest
          { st1 with messages := st1.messages ++ [Msg.tool outv tc.id],
                     trace := st1.trace ++ [(tc.name, tc.args)] }

/-- The `while True` loop of lines 209-314, with the model reply of the
i-th iteration given by `script i` and explicit fuel standing for the
number of iterations the unbounded Python loop is allowed to run. -/
def runLoop (script : Nat → ModelMsg) (tools : String → Option (String → ToolRes))
    (agent_name : String) : Nat → LoopSt → RunOut
  | 0, st => RunOut.spent st
  | fuel + 1, st =>
    match script st.iteration_count with
    | ModelMsg.assistant content tcs =>
      let st2 := postModel st agent_name content
      if tcs.isEmpty then
        RunOut.done
          { raw := content, iterations := st2.iteration_count,
            tool_calls := st2.tool_calls_count, agent := agent_name } st2
      else
        match processToolCalls tools agent_name tcs st2 with
        | StepOut.ok st3 => runLoop script tools agent_name fuel st3
        | StepOut.err e st3 => RunOut.fail e st3
    | ModelMsg.toolMsg tname targs content =>
      let st2 := postModel st agent_name content
      let st3 := { st2 with tool_calls_count := st2.tool_calls_count + 1,
                            tracker := st2.tracker.record_tool_call agent_name }
      match tools tname with
      | none => RunOut.fail (AgentErr.unknownTool tname) st3
      | some f =>
        match f targs with
        | ToolRes.exn e => RunOut.fail (AgentErr.toolExec e) st3
        | ToolRes.ok outv =>
          runLoop script tools agent_name fuel
            { st3 with messages := st3.messages ++ [Msg.toolN tname outv],
                       trace := st3.trace ++ [(tname, targs)] }

/-- `run_agent` (lines 169-319): seed the message list with the system
prompt and the serialized input, then run the loop with zeroed local
counters.  The transport/session setup is outside the model; the
`except` handler at the end only logs and re-raises. -/
def run_agent (script : Nat → ModelMsg) (tools : String → Option (String → ToolRes))
    (input_content system_prompt agent_name : String)
    (tr : MetricsTracker2) (fuel : Nat) : RunOut :=
  runLoop script tools agent_name fuel
    { messages := [Msg.system system_prompt, Msg.human input_content],
      tool_calls_count := 0, iteration_count := 0, tracker := tr, trace := [] }

/-- Does one tool call resolve and execute without raising? -/
def tcOk (tools : String → Option (String → ToolRes)) (tc : ToolCall) : Bool :=
  match tools tc.name with
  | none => false
  | some f =>
    match f tc.args with
    | ToolRes.ok _ => true
    | ToolRes.exn _ => false

/-- The output string of a successfully executed tool call. -/
def tcOut (tools : String → Option (String → ToolRes)) (tc : ToolCall) : String :=
  match tools tc.name with
  | none => ""
  | some f =>
    match f tc.args with
    | ToolRes.ok outv => outv
    | ToolRes.exn _ => ""

/-- A model turn that is a successful tool round: an assistant turn with
at least one tool call, all of which resolve and execute. -/
def turnToolRound (tools : String → Option (String → ToolRes)) : ModelMsg → Bool
  | ModelMsg.assistant _ tcs => !tcs.isEmpty && tcs.all (fun tc => tcOk tools tc)
  | ModelMsg.toolMsg _ _ _ => false

/-- A model turn that carries at least one tool-call request. -/
def turnHasCalls : ModelMsg → Bool
  | ModelMsg.assistant _ tcs => !tcs.isEmpty
  | ModelMsg.toolMsg _ _ _ => true

/-- Number of tool-call requests carried by one model turn. -/
def numCalls : ModelMsg → Nat
  | ModelMsg.assistant _ tcs => tcs.length
  | ModelMsg.toolMsg _ _ _ => 1

/-- Total number of tool-call requests over `count` model turns starting
at script index `base`. -/
def roundCalls (script : Nat → ModelMsg) (base : Nat) : Nat → Nat
  | 0 => 0
  | count + 1 => numCalls (script base) + roundCalls script (base + 1) count

/-! ### The pipeline orchestrator `run_system` of `src/core/system_runner2.py` -/

/-- The behaviour of one stage's tool process and model: the reply
script, the resolvable-tool environment, and the fuel given to the
stage's (unbounded in the source) loop. -/
structure StageEnv where
  script : Nat → ModelMsg
  tools : String → Option (String → ToolRes)
  fuel : Nat

/-- The value of `metrics_tracker.get_summary()` (lines 94-101): the
four buckets plus `execution_time_seconds`, which is `end - start` when
`end_time` is set and 0 otherwise (`run_system` always sets `start_time`
first). -/
structure SysSummary where
  planner : AgentStats
  developer : AgentStats
  tester : AgentStats
  total : AgentStats
  execution_time_seconds : Nat
deriving DecidableEq, Repr

/-- `MetricsTracker2.get_summary` (lines 94-101). -/
def MetricsTracker2.get_summary (t : MetricsTracker2) : SysSummary :=
  { planner := t.planner, developer := t.developer, tester := t.tester,
    total := t.total,
    execution_time_seconds :=
      match t.end_time, t.start_time with
      | some e, some s => e - s
      | _, _ => 0 }

/-- The success dict returned by `run_system` (lines 411-416). -/
structure PipelineResult where
  plan : AgentResult
  code : AgentResult
  tests : AgentResult
  metrics : SysSummary
deriving DecidableEq, Repr

/-- Outcome of `run_system`: a `PipelineResult`, a re-raised stage
failure (carrying the summary printed by the `except` handler and the
finalized tracker), or a still-running (out of fuel) pipeline. -/
inductive SysOut where
  | ok (result : PipelineResult) (tr : MetricsTracker2)
  | err (e : AgentErr) (reported : SysSummary) (tr : MetricsTracker2)
  | spent (tr : MetricsTracker2)
deriving DecidableEq, Repr

/-- `run_system` (lines 324-422): start tracking, run the planner,
developer and tester stages in sequence threading each stage's output
into the next stage's input (serialization abstracted by `serDev` /
`serTest`), and on success end tracking, print the summary and return
the combined result.  On any stage failure the `except` handler ends
tracking, prints the summary and re-raises; no partial result is
returned.  `tStart`/`tEnd` are the abstract wall-clock readings of the
two `datetime.now()` calls. -/
def run_system (pEnv dEnv tEnv : StageEnv)
    (pPrompt dPrompt tPrompt input0 : String)
    (serDev serTest : AgentResult → String)
    (tr0 : MetricsTracker2) (tStart tEnd : Nat) : SysOut :=
  let tr := tr0.start_tracking tStart
  match run_agent pEnv.script pEnv.tools input0 pPrompt "planner" tr pEnv.fuel with
  | RunOut.spent st => SysOut.spent st.tracker
  | RunOut.fail e st =>
      let trf := st.tracker.end_tracking tEnd
      SysOut.err e trf.get_summary trf
  | RunOut.done plan st =>
    match run_agent dEnv.script dEnv.tools (serDev plan) dPrompt "developer"
        st.tracker dEnv.fuel with
    | RunOut.spent st2 => SysOut.spent st2.tracker
    | RunOut.fail e st2 =>
        let trf := st2.tracker.end_tracking tEnd
        SysOut.err e trf.get_summary trf
    | RunOut.done code st2 =>
      match run_agent tEnv.script tEnv.tools (serTest code) tPrompt "tester"
          st2.tracker tEnv.fuel with
      | RunOut.spent st3 => SysOut.spent st3.tracker
      | RunOut.fail e st3 =>
          let trf := st3.tracker.end_tracking tEnd
          SysOut.err e trf.get_summary trf
      | RunOut.done tests st3 =>
          let trf := st3.tracker.end_tracking tEnd
          SysOut.ok { plan := plan, code := code, tests := tests,
                      metrics := trf.get_summary } trf

/-! ### Concrete demonstration inputs -/

/-- A resolvable `write_file` request. -/
def wfCall : ToolCall :=
  { name := "write_file", args := "app.py", id := "call_1" }

/-- A resolvable `read_file` request. -/
def rfCall : ToolCall :=
  { name := "read_file", args := "app.py", id := "call_2" }

/-- A request naming a tool absent from the discovered set. -/
def badCall : ToolCall :=
  { name := "make_coffee", args := "", id := "call_3" }

/-- A tool environment resolving `write_file` and `read_file` only. -/
def demoTools : String → Option (String → ToolRes) := fun n =>
  if n = "write_file" then some (fun _ => ToolRes.ok "ok")
  else if n = "read_file" then some (fun _ => ToolRes.ok "content")
  else none

/-- One `write_file` round followed by a tool-less final turn (the
spec's developer-stage scenario). -/
def demoScript : Nat → ModelMsg := fun i =>
  if i = 0 then ModelMsg.assistant "writing" [wfCall]
  else ModelMsg.assistant "done" []

/-- One turn carrying two requests, then a tool-less final turn. -/
def demoScriptMulti : Nat → ModelMsg := fun i =>
  if i = 0 then ModelMsg.assistant "working" [wfCall, rfCall]
  else ModelMsg.assistant "done" []

/-- Every turn requests a good tool, an unknown tool, then another good
tool. -/
def demoScriptBad : Nat → ModelMsg := fun _ =>
  ModelMsg.assistant "trying" [wfCall, badCall, rfCall]

/-- Every turn carries one resolvable, succeeding request: the model
never stops asking for tools. -/
def demoScriptLoop : Nat → ModelMsg := fun _ =>
  ModelMsg.assistant "again" [wfCall]

/-- A freshly seeded loop state. -/
def demoStart : LoopSt :=
  { messages := [Msg.system "sys", Msg.human "input"],
    tool_calls_count := 0, iteration_count := 0,
    tracker := MetricsTracker2.new, trace := [] }

/-- A stage whose first model turn requests an unknown tool. -/
def demoEnvBad : StageEnv :=
  { script := demoScriptBad, tools := demoTools, fuel := 1 }

/-- A trivial serializer threading one stage's raw output onward. -/
def demoSer : AgentResult → String := fun r => r.raw

/-- A mixed interleaving of `record_*` calls (including an unknown agent
name). -/
def demoOps : List MOp :=
  [MOp.api_call "planner" 5 7, MOp.api_call "ghost" 1 2,
   MOp.tool_call "planner" "write_file", MOp.iteration "developer",
   MOp.error "tester" "boom"]

theorem add_api_call_eq_addM (m : AgentMetrics) (i o : Nat) :
    m.add_api_call i o = AgentMetrics.addM m (apiDelta i o) := by
  simp [AgentMetrics.add_api_call, AgentMetrics.addM, apiDelta]

theorem add_tool_call_eq_addM (m : AgentMetrics) :
    m.add_tool_call = AgentMetrics.addM m toolDelta := by
  simp [AgentMetrics.add_tool_call, AgentMetrics.addM, toolDelta, AgentMetrics.zero]

theorem add_iteration_eq_addM (m : AgentMetrics) :
    m.add_iteration = AgentMetrics.addM m iterDelta := by
  simp [AgentMetrics.add_iteration, AgentMetrics.addM, iterDelta, AgentMetrics.zero]

theorem add_error_eq_addM (m : AgentMetrics) :
    m.add_error = AgentMetrics.addM m errDelta := by
  simp [AgentMetrics.add_error, AgentMetrics.addM, errDelta, AgentMetrics.zero]

theorem addM_zero (a : AgentMetrics) : AgentMetrics.addM a AgentMetrics.zero = a := by
  simp [AgentMetrics.addM, AgentMetrics.zero]

theorem zero_addM (a : AgentMetrics) : AgentMetrics.addM AgentMetrics.zero a = a := by
  simp [AgentMetrics.addM, AgentMetrics.zero]

theorem addM_right_comm (a b c : AgentMetrics) :
    AgentMetrics.addM (AgentMetrics.addM a b) c
      = AgentMetrics.addM (AgentMetrics.addM a c) b := by
  simp only [AgentMetrics.addM, AgentMetrics.mk.injEq]
  omega

theorem addM_assoc (a b c : AgentMetrics) :
    AgentMetrics.addM (AgentMetrics.addM a b) c
      = AgentMetrics.addM a (AgentMetrics.addM b c) := by
  simp only [AgentMetrics.addM, AgentMetrics.mk.injEq]
  omega

theorem keysA_updA {α : Type} (m : List (String × α)) (a : String) (f : α → α) :
    keysA (updA m a f) = keysA m := by
  induction m with
  | nil => rfl
  | cons p rest ih =>
      obtain ⟨k, v⟩ := p
      by_cases h : k = a <;> simp [updA, keysA, h] <;> simpa [keysA] using ih

theorem keysA_append {α : Type} (m l : List (String × α)) :
    keysA (m ++ l) = keysA m ++ keysA l := by
  simp [keysA]

theorem findA_eq_none_iff {α : Type} (m : List (String × α)) (a : String) :
    findA m a = none ↔ a ∉ keysA m := by
  induction m with
  | nil => simp [findA, keysA]
  | cons p rest ih =>
      obtain ⟨k, v⟩ := p
      by_cases h : k = a
      · simp [findA, keysA, h]
      · simp [findA, keysA, h, ih, Ne.symm h]

theorem findA_updA_self {α : Type} (m : List (String × α)) (a : String) (f : α → α) :
    findA (updA m a f) a = (findA m a).map f := by
  induction m with
  | nil => rfl
  | cons p rest ih =>
      obtain ⟨k, v⟩ := p
      by_cases h : k = a
      · simp [updA, findA, h]
      · simp [updA, findA, h, ih]

theorem findA_updA_ne {α : Type} (m : List (String × α)) (a b : String) (f : α → α)
    (h : b ≠ a) : findA (updA m a f) b = findA m b := by
  induction m with
  | nil => rfl
  | cons p rest ih =>
      obtain ⟨k, v⟩ := p
      by_cases hp : k = a
      · subst hp
        simp [updA, findA, Ne.symm h, ih]
      · by_cases hb : k = b
        · subst hb
          simp [updA, findA, hp, ih]
        · simp [updA, findA, hp, hb, ih]

theorem findA_append_of_some {α : Type} (m l : List (String × α)) (b : String)
    (v : α) (h : findA m b = some v) : findA (m ++ l) b = some v := by
  induction m with
  | nil => simp [findA] at h
  | cons p rest ih =>
      obtain ⟨k, w⟩ := p
      by_cases hp : k = b
      · simpa [findA, hp] using h
      · simp [findA, hp] at h ⊢
        exact ih h

theorem findA_append_singleton_of_none {α : Type} (m : List (String × α))
    (a : String) (v : α) (h : findA m a = none) :
    findA (m ++ [(a, v)]) a = some v := by
  induction m with
  | nil => simp [findA]
  | cons p rest ih =>
      obtain ⟨k, w⟩ := p
      by_cases hp : k = a
      · simp [findA, hp] at h
      · simp [findA, hp] at h ⊢
        exact ih h

theorem updA_of_not_mem {α : Type} (m : List (String × α)) (a : String) (f : α → α)
    (h : a ∉ keysA m) : updA m a f = m := by
  induction m with
  | nil => rfl
  | cons p rest ih =>
      obtain ⟨k, v⟩ := p
      simp only [keysA, List.map_cons, List.mem_cons] at h
      push_neg at h
      have hk : ¬k = a := by
        intro hk
        exact h.1 hk.symm
      simp [updA, hk, ih (by simpa [keysA] using h.2)]

theorem updA_congr {α : Type} (m : List (String × α)) (a : String) (f g : α → α)
    (h : ∀ x, f x = g x) : updA m a f = updA m a g := by
  induction m with
  | nil => rfl
  | cons p rest ih =>
      obtain ⟨k, v⟩ := p
      by_cases hp : k = a <;> simp [updA, hp, h, ih]

theorem sumNT_updA_total (m : List (String × AgentMetrics))
    (f : AgentMetrics → AgentMetrics) :
    sumNT (updA m "total" f) = sumNT m := by
  induction m with
  | nil => rfl
  | cons p rest ih =>
      obtain ⟨k, v⟩ := p
      by_cases h : k = "total"
      · simp [updA, sumNT, h, ih]
      · simp [updA, sumNT, h, ih]

theorem sumNT_append_zero (m : List (String × AgentMetrics)) (a : String)
    (ha : a ≠ "total") :
    sumNT (m ++ [(a, AgentMetrics.zero)]) = sumNT m := by
  induction m with
  | nil => simp [sumNT, ha, zero_addM]
  | cons p rest ih =>
      obtain ⟨k, v⟩ := p
      by_cases h : k = "total"
      · simp [sumNT, h, ih]
      · simp [sumNT, h, ih]

theorem sumNT_updA_addM (m : List (String × AgentMetrics)) (a : String)
    (δ : AgentMetrics) (hnd : (keysA m).Nodup) (ha : a ≠ "total")
    (b : AgentMetrics) (hb : findA m a = some b) :
    sumNT (updA m a (fun x => AgentMetrics.addM x δ))
      = AgentMetrics.addM (sumNT m) δ := by
  induction m with
  | nil => simp [findA] at hb
  | cons p rest ih =>
      obtain ⟨k, v⟩ := p
      simp only [keysA, List.map_cons, List.nodup_cons] at hnd
      by_cases hk : k = a
      · subst hk
        have hrest : updA rest k (fun x => AgentMetrics.addM x δ) = rest :=
          updA_of_not_mem rest k _ (by simpa [keysA] using hnd.1)
        simp only [updA, if_pos rfl, sumNT, if_neg ha, hrest]
        exact addM_right_comm v δ (sumNT rest)
      · have hb' : findA rest a = some b := by
          simpa [findA, hk] using hb
        have hupd : updA ((k, v) :: rest) a (fun x => AgentMetrics.addM x δ)
            = (k, v) :: updA rest a (fun x => AgentMetrics.addM x δ) := by
          simp [updA, hk]
        rw [hupd]
        by_cases ht : k = "total"
        · simp [sumNT, ht, ih hnd.2 hb']
        · simp only [sumNT, if_neg ht, ih hnd.2 hb']
          rw [addM_assoc]

theorem nodup_append_singleton {l : List String} {a : String}
    (h : l.Nodup) (ha : a ∉ l) : (l ++ [a]).Nodup := by
  induction l with
  | nil => simp
  | cons x rest ih =>
      simp only [List.mem_cons] at ha
      push_neg at ha
      simp only [List.nodup_cons] at h
      simp only [List.cons_append, List.nodup_cons]
      constructor
      · intro hx
        rcases List.mem_append.mp hx with hx | hx
        · exact h.1 hx
        · simp at hx
          exact ha.1 hx.symm
      · exact ih h.2 ha.2

theorem metricsInv_new (sid : String) : metricsInv (MetricsTracker.new sid).metrics := by
  have h : (MetricsTracker.new sid).metrics
      = [("planner", AgentMetrics.zero), ("developer", AgentMetrics.zero),
         ("tester", AgentMetrics.zero), ("total", AgentMetrics.zero)] := rfl
  unfold metricsInv
  rw [h]
  exact ⟨by decide, by decide⟩

/-- Updating a present, non-total bucket by a pointwise increment and
then updating the total bucket by the same increment preserves the sum
invariant. -/
theorem metricsInv_bump (m : List (String × AgentMetrics)) (a : String)
    (δ : AgentMetrics) (ha : a ≠ "total") (b : AgentMetrics)
    (hb : findA m a = some b) (hInv : metricsInv m) :
    metricsInv (updA (updA m a (fun x => AgentMetrics.addM x δ))
      "total" (fun x => AgentMetrics.addM x δ)) := by
  obtain ⟨hnd, htot⟩ := hInv
  constructor
  · simpa [keysA_updA] using hnd
  · have h1 : findA (updA m a (fun x => AgentMetrics.addM x δ)) "total"
        = some (sumNT m) := by
      rw [findA_updA_ne _ _ _ _ (Ne.symm ha)]
      exact htot
    rw [findA_updA_self, h1]
    rw [sumNT_updA_total, sumNT_updA_addM m a δ hnd ha b hb]
    rfl

theorem metricsInv_record_api_call (t : MetricsTracker) (a : String)
    (i o : Nat) (ha : a ≠ "total") (hInv : metricsInv t.metrics) :
    metricsInv (t.record_api_call a i o).metrics := by
  have hcg : ∀ (m : List (String × AgentMetrics)),
      updA m "total" (fun b => b.add_api_call i o)
        = updA m "total" (fun x => AgentMetrics.addM x (apiDelta i o)) := by
    intro m
    exact updA_congr _ _ _ _ (fun x => add_api_call_eq_addM x i o)
  have hcg2 : ∀ (m : List (String × AgentMetrics)),
      updA m a (fun b => b.add_api_call i o)
        = updA m a (fun x => AgentMetrics.addM x (apiDelta i o)) := by
    intro m
    exact updA_congr _ _ _ _ (fun x => add_api_call_eq_addM x i o)
  by_cases hmem : (findA t.metrics a).isNone
  · -- unknown agent: a zeroed bucket is appended first
    obtain ⟨hnd, htot⟩ := hInv
    have hnone : findA t.metrics a = none := by
      cases h : findA t.metrics a with
      | none => rfl
      | some v => rw [h] at hmem; simp at hmem
    have hInv1 : metricsInv (t.metrics ++ [(a, AgentMetrics.zero)]) := by
      constructor
      · rw [keysA_append]
        have hmem2 : a ∉ keysA t.metrics := (findA_eq_none_iff _ _).mp hnone
        have hk1 : keysA [(a, AgentMetrics.zero)] = [a] := rfl
        rw [hk1]
        exact nodup_append_singleton hnd hmem2
      · rw [findA_append_of_some _ _ _ _ htot, sumNT_append_zero _ _ ha]
    have hfound : findA (t.metrics ++ [(a, AgentMetrics.zero)]) a
        = some AgentMetrics.zero := findA_append_singleton_of_none _ _ _ hnone
    simp only [MetricsTracker.record_api_call, hmem, if_pos]
    rw [hcg2, hcg]
    exact metricsInv_bump _ a (apiDelta i o) ha AgentMetrics.zero hfound hInv1
  · obtain ⟨b, hb⟩ : ∃ b, findA t.metrics a = some b := by
      cases h : findA t.metrics a with
      | none => rw [h] at hmem; simp at hmem
      | some v => exact ⟨v, rfl⟩
    simp only [MetricsTracker.record_api_call, hmem, if_neg, Bool.false_eq_true,
      not_false_eq_true]
    rw [hcg2, hcg]
    exact metricsInv_bump _ a (apiDelta i o) ha b hb hInv

theorem metricsInv_upd2 (m : List (String × AgentMetrics)) (a : String)
    (g : AgentMetrics → AgentMetrics) (δ : AgentMetrics)
    (hg : ∀ x, g x = AgentMetrics.addM x δ) (ha : a ≠ "total")
    (b : AgentMetrics) (hb : findA m a = some b) (hInv : metricsInv m) :
    metricsInv (updA (updA m a g) "total" g) := by
  have h1 : updA m a g = updA m a (fun x => AgentMetrics.addM x δ) :=
    updA_congr _ _ _ _ hg
  have h2 : updA (updA m a (fun x => AgentMetrics.addM x δ)) "total" g
      = updA (updA m a (fun x => AgentMetrics.addM x δ)) "total"
          (fun x => AgentMetrics.addM x δ) :=
    updA_congr _ _ _ _ hg
  rw [h1, h2]
  exact metricsInv_bump m a δ ha b hb hInv

theorem metricsInv_record_tool_call (t : MetricsTracker) (a tn : String)
    (ha : a ≠ "total") (hInv : metricsInv t.metrics) :
    metricsInv (t.record_tool_call a tn).metrics := by
  by_cases hmem : (findA t.metrics a).isNone
  · simpa [MetricsTracker.record_tool_call, hmem] using hInv
  · obtain ⟨b, hb⟩ : ∃ b, findA t.metrics a = some b := by
      cases h : findA t.metrics a with
      | none => rw [h] at hmem; simp at hmem
      | some v => exact ⟨v, rfl⟩
    simp only [MetricsTracker.record_tool_call, hmem, Bool.false_eq_true, if_neg,
      not_false_eq_true]
    exact metricsInv_upd2 t.metrics a _ toolDelta
      (fun x => add_tool_call_eq_addM x) ha b hb hInv

theorem metricsInv_record_iteration (t : MetricsTracker) (a : String)
    (ha : a ≠ "total") (hInv : metricsInv t.metrics) :
    metricsInv (t.record_iteration a).metrics := by
  by_cases hmem : (findA t.metrics a).isNone
  · simpa [MetricsTracker.record_iteration, hmem] using hInv
  · obtain ⟨b, hb⟩ : ∃ b, findA t.metrics a = some b := by
      cases h : findA t.metrics a with
      | none => rw [h] at hmem; simp at hmem
      | some v => exact ⟨v, rfl⟩
    simp only [MetricsTracker.record_iteration, hmem, Bool.false_eq_true, if_neg,
      not_false_eq_true]
    exact metricsInv_upd2 t.metrics a _ iterDelta
      (fun x => add_iteration_eq_addM x) ha b hb hInv

theorem metricsInv_record_error (t : MetricsTracker) (a msg : String)
    (ha : a ≠ "total") (hInv : metricsInv t.metrics) :
    metricsInv (t.record_error a msg).metrics := by
  by_cases hmem : (findA t.metrics a).isNone
  · simpa [MetricsTracker.record_error, hmem] using hInv
  · obtain ⟨b, hb⟩ : ∃ b, findA t.metrics a = some b := by
      cases h : findA t.metrics a with
      | none => rw [h] at hmem; simp at hmem
      | some v => exact ⟨v, rfl⟩
    simp only [MetricsTracker.record_error, hmem, Bool.false_eq_true, if_neg,
      not_false_eq_true]
    exact metricsInv_upd2 t.metrics a _ errDelta
      (fun x => add_error_eq_addM x) ha b hb hInv

theorem metricsInv_applyOp (t : MetricsTracker) (op : MOp)
    (ha : op.agentName ≠ "total") (hInv : metricsInv t.metrics) :
    metricsInv (applyOp t op).metrics := by
  cases op with
  | api_call a i o => exact metricsInv_record_api_call t a i o ha hInv
  | tool_call a tn => exact metricsInv_record_tool_call t a tn ha hInv
  | iteration a => exact metricsInv_record_iteration t a ha hInv
  | error a msg => exact metricsInv_record_error t a msg ha hInv

theorem metricsInv_applyOps (ops : List MOp) :
    ∀ (t : MetricsTracker), (∀ op ∈ ops, op.agentName ≠ "total") →
      metricsInv t.metrics → metricsInv (applyOps t ops).metrics := by
  induction ops with
  | nil => intro t _ hInv; exact hInv
  | cons op rest ih =>
      intro t hops hInv
      have h1 := metricsInv_applyOp t op (hops op (by simp)) hInv
      have h2 := ih (applyOp t op) (fun o ho => hops o (by simp [ho]))
      simpa [applyOps] using h2 h1

theorem findA_some_mem {α : Type} (m : List (String × α)) (a : String) (b : α)
    (h : findA m a = some b) : (a, b) ∈ m := by
  induction m with
  | nil => simp [findA] at h
  | cons p rest ih =>
      obtain ⟨k, v⟩ := p
      by_cases hk : k = a
      · subst hk
        simp [findA] at h
        simp [h]
      · simp [findA, hk] at h
        simp [ih h]

theorem tokOk_add_api_call (b : AgentMetrics) (i o : Nat) (h : tokOk b) :
    tokOk (b.add_api_call i o) := by
  simp only [tokOk, AgentMetrics.add_api_call] at h ⊢
  omega

theorem tokOk_add_tool_call (b : AgentMetrics) (h : tokOk b) :
    tokOk b.add_tool_call := h

theorem tokOk_add_iteration (b : AgentMetrics) (h : tokOk b) :
    tokOk b.add_iteration := h

theorem tokOk_add_error (b : AgentMetrics) (h : tokOk b) :
    tokOk b.add_error := h

theorem allTok_updA (m : List (String × AgentMetrics)) (a : String)
    (f : AgentMetrics → AgentMetrics) (hf : ∀ b, tokOk b → tokOk (f b))
    (h : allTok m) : allTok (updA m a f) := by
  induction m with
  | nil => intro p hp; simp [updA] at hp
  | cons q rest ih =>
      obtain ⟨k, v⟩ := q
      have hrest : allTok rest := fun p hp => h p (by simp [hp])
      have hv : tokOk v := h (k, v) (by simp)
      intro p hp
      by_cases hk : k = a
      · simp only [updA, if_pos hk] at hp
        rcases List.mem_cons.mp hp with hp | hp
        · subst hp; exact hf v hv
        · exact ih hrest p hp
      · simp only [updA, if_neg hk] at hp
        rcases List.mem_cons.mp hp with hp | hp
        · subst hp; exact hv
        · exact ih hrest p hp

theorem allTok_append_zero (m : List (String × AgentMetrics)) (a : String)
    (h : allTok m) : allTok (m ++ [(a, AgentMetrics.zero)]) := by
  intro p hp
  rcases List.mem_append.mp hp with hp | hp
  · exact h p hp
  · simp at hp
    subst hp
    simp [tokOk, AgentMetrics.zero]

theorem allTok_applyOp (t : MetricsTracker) (op : MOp) (h : allTok t.metrics) :
    allTok (applyOp t op).metrics := by
  cases op with
  | api_call a i o =>
      by_cases hmem : (findA t.metrics a).isNone
      · simp only [applyOp, MetricsTracker.record_api_call, hmem, if_pos]
        exact allTok_updA _ _ _ (fun b => tokOk_add_api_call b i o)
          (allTok_updA _ _ _ (fun b => tokOk_add_api_call b i o)
            (allTok_append_zero _ _ h))
      · simp only [applyOp, MetricsTracker.record_api_call, hmem,
          Bool.false_eq_true, if_neg, not_false_eq_true]
        exact allTok_updA _ _ _ (fun b => tokOk_add_api_call b i o)
          (allTok_updA _ _ _ (fun b => tokOk_add_api_call b i o) h)
  | tool_call a tn =>
      by_cases hmem : (findA t.metrics a).isNone
      · simpa [applyOp, MetricsTracker.record_tool_call, hmem] using h
      · simp only [applyOp, MetricsTracker.record_tool_call, hmem,
          Bool.false_eq_true, if_neg, not_false_eq_true]
        exact allTok_updA _ _ _ tokOk_add_tool_call
          (allTok_updA _ _ _ tokOk_add_tool_call h)
  | iteration a =>
      by_cases hmem : (findA t.metrics a).isNone
      · simpa [applyOp, MetricsTracker.record_iteration, hmem] using h
      · simp only [applyOp, MetricsTracker.record_iteration, hmem,
          Bool.false_eq_true, if_neg, not_false_eq_true]
        exact allTok_updA _ _ _ tokOk_add_iteration
          (allTok_updA _ _ _ tokOk_add_iteration h)
  | error a msg =>
      by_cases hmem : (findA t.metrics a).isNone
      · simpa [applyOp, MetricsTracker.record_error, hmem] using h
      · simp only [applyOp, MetricsTracker.record_error, hmem,
          Bool.false_eq_true, if_neg, not_false_eq_true]
        exact allTok_updA _ _ _ tokOk_add_error
          (allTok_updA _ _ _ tokOk_add_error h)

theorem allTok_applyOps (ops : List MOp) :
    ∀ (t : MetricsTracker), allTok t.metrics → allTok (applyOps t ops).metrics := by
  induction ops with
  | nil => intro t h; exact h
  | cons op rest ih =>
      intro t h
      simpa [applyOps] using ih (applyOp t op) (allTok_applyOp t op h)

theorem allTok_new (sid : String) : allTok (MetricsTracker.new sid).metrics := by
  intro p hp
  simp [MetricsTracker.new] at hp
  rcases hp with h | h | h | h <;> subst h <;> simp [tokOk, AgentMetrics.zero]

theorem allTok_reset (t : MetricsTracker) (sid : String) :
    allTok (t.reset sid).metrics := by
  intro p hp
  simp only [MetricsTracker.reset, List.mem_map] at hp
  obtain ⟨q, _, hq⟩ := hp
  rw [← hq]
  simp [tokOk, AgentMetrics.zero]

theorem bApi_record_iteration (t : MetricsTracker2) (a n : String)
    (ha : isStageAgent a) : bApi (t.record_iteration a) n = bApi t n := by
  rcases ha with rfl | rfl | rfl <;>
    simp [MetricsTracker2.record_iteration, MetricsTracker2.getB,
      MetricsTracker2.setB, bApi] <;>
    split_ifs <;> rfl

theorem bTool_record_iteration (t : MetricsTracker2) (a n : String)
    (ha : isStageAgent a) : bTool (t.record_iteration a) n = bTool t n := by
  rcases ha with rfl | rfl | rfl <;>
    simp [MetricsTracker2.record_iteration, MetricsTracker2.getB,
      MetricsTracker2.setB, bTool] <;>
    split_ifs <;> rfl

theorem bTool_record_api_call (t : MetricsTracker2) (a n : String) (i o : Nat)
    (ha : isStageAgent a) : bTool (t.record_api_call a i o) n = bTool t n := by
  rcases ha with rfl | rfl | rfl <;>
    simp [MetricsTracker2.record_api_call, MetricsTracker2.getB,
      MetricsTracker2.setB, bTool] <;>
    split_ifs <;> rfl

theorem bApi_record_api_call_self (t : MetricsTracker2) (a : String) (i o : Nat)
    (ha : isStageAgent a) : bApi (t.record_api_call a i o) a = bApi t a + 1 := by
  rcases ha with rfl | rfl | rfl <;>
    simp [MetricsTracker2.record_api_call, MetricsTracker2.getB,
      MetricsTracker2.setB, bApi]

theorem bApi_record_api_call_total (t : MetricsTracker2) (a : String) (i o : Nat)
    (ha : isStageAgent a) :
    bApi (t.record_api_call a i o) "total" = bApi t "total" + 1 := by
  rcases ha with rfl | rfl | rfl <;>
    simp [MetricsTracker2.record_api_call, MetricsTracker2.getB,
      MetricsTracker2.setB, bApi]

theorem bTool_record_tool_call_self (t : MetricsTracker2) (a : String)
    (ha : isStageAgent a) : bTool (t.record_tool_call a) a = bTool t a + 1 := by
  rcases ha with rfl | rfl | rfl <;>
    simp [MetricsTracker2.record_tool_call, MetricsTracker2.getB,
      MetricsTracker2.setB, bTool]

theorem bTool_record_tool_call_total (t : MetricsTracker2) (a : String)
    (ha : isStageAgent a) :
    bTool (t.record_tool_call a) "total" = bTool t "total" + 1 := by
  rcases ha with rfl | rfl | rfl <;>
    simp [MetricsTracker2.record_tool_call, MetricsTracker2.getB,
      MetricsTracker2.setB, bTool]

theorem bApi_record_tool_call (t : MetricsTracker2) (a n : String)
    (ha : isStageAgent a) : bApi (t.record_tool_call a) n = bApi t n := by
  rcases ha with rfl | rfl | rfl <;>
    simp [MetricsTracker2.record_tool_call, MetricsTracker2.getB,
      MetricsTracker2.setB, bApi] <;>
    split_ifs <;> rfl

theorem bApi_recordN (t : MetricsTracker2) (a n : String) (k : Nat)
    (ha : isStageAgent a) : bApi (recordN t a k) n = bApi t n := by
  induction k generalizing t with
  | zero => rfl
  | succ k ih =>
      simp only [recordN]
      rw [ih (t.record_tool_call a)]
      exact bApi_record_tool_call t a n ha

theorem bTool_recordN_self (t : MetricsTracker2) (a : String) (k : Nat)
    (ha : isStageAgent a) : bTool (recordN t a k) a = bTool t a + k := by
  induction k generalizing t with
  | zero => rfl
  | succ k ih =>
      simp only [recordN]
      rw [ih (t.record_tool_call a)]
      rw [bTool_record_tool_call_self t a ha]
      omega

theorem bTool_recordN_total (t : MetricsTracker2) (a : String) (k : Nat)
    (ha : isStageAgent a) : bTool (recordN t a k) "total" = bTool t "total" + k := by
  induction k generalizing t with
  | zero => rfl
  | succ k ih =>
      simp only [recordN]
      rw [ih (t.record_tool_call a)]
      rw [bTool_record_tool_call_total t a ha]
      omega

theorem processToolCalls_ok (tools : String → Option (String → ToolRes))
    (agent_name : String) :
    ∀ (tcs : List ToolCall) (st : LoopSt),
      (∀ tc ∈ tcs, tcOk tools tc = true) →
      processToolCalls tools agent_name tcs st = StepOut.ok
        { messages := st.messages
            ++ tcs.map (fun tc => Msg.tool (tcOut tools tc) tc.id),
          tool_calls_count := st.tool_calls_count + tcs.length,
          iteration_count := st.iteration_count,
          tracker := recordN st.tracker agent_name tcs.length,
          trace := st.trace ++ tcs.map (fun tc => (tc.name, tc.args)) } := by
  intro tcs
  induction tcs with
  | nil =>
      intro st _
      simp [processToolCalls, recordN]
  | cons tc rest ih =>
      intro st h
      have htc : tcOk tools tc = true := h tc (by simp)
      obtain ⟨f, hf⟩ : ∃ f, tools tc.name = some f := by
        cases hol : tools tc.name with
        | none => simp [tcOk, hol] at htc
        | some f => exact ⟨f, rfl⟩
      obtain ⟨outv, hout⟩ : ∃ outv, f tc.args = ToolRes.ok outv := by
        cases ho : f tc.args with
        | ok o => exact ⟨o, rfl⟩
        | exn e => simp [tcOk, hf, ho] at htc
      have htcOut : tcOut tools tc = outv := by
        simp [tcOut, hf, hout]
      simp only [processToolCalls, hf, hout]
      rw [ih _ (fun x hx => h x (by simp [hx]))]
      simp only [StepOut.ok.injEq, LoopSt.mk.injEq]
      refine ⟨?_, ?_, ?_, ?_, ?_⟩
      · simp [htcOut]
      · simp
        omega
      · trivial
      · simp [recordN]
      · simp

theorem processToolCalls_unknown (tools : String → Option (String → ToolRes))
    (agent_name : String) :
    ∀ (pre : List ToolCall) (bad : ToolCall) (rest : List ToolCall) (st : LoopSt),
      (∀ tc ∈ pre, tcOk tools tc = true) → tools bad.name = none →
      processToolCalls tools agent_name (pre ++ bad :: rest) st =
        StepOut.err (AgentErr.unknownTool bad.name)
          { messages := st.messages
              ++ pre.map (fun tc => Msg.tool (tcOut tools tc) tc.id),
            tool_calls_count := st.tool_calls_count + pre.length + 1,
            iteration_count := st.iteration_count,
            tracker := recordN st.tracker agent_name (pre.length + 1),
            trace := st.trace ++ pre.map (fun tc => (tc.name, tc.args)) } := by
  intro pre
  induction pre with
  | nil =>
      intro bad rest st _ hbad
      simp only [List.nil_append, processToolCalls, hbad]
      simp [recordN]
  | cons tc pre ih =>
      intro bad rest st h hbad
      have htc : tcOk tools tc = true := h tc (by simp)
      obtain ⟨f, hf⟩ : ∃ f, tools tc.name = some f := by
        cases hol : tools tc.name with
        | none => simp [tcOk, hol] at htc
        | some f => exact ⟨f, rfl⟩
      obtain ⟨outv, hout⟩ : ∃ outv, f tc.args = ToolRes.ok outv := by
        cases ho : f tc.args with
        | ok o => exact ⟨o, rfl⟩
        | exn e => simp [tcOk, hf, ho] at htc
      have htcOut : tcOut tools tc = outv := by
        simp [tcOut, hf, hout]
      simp only [List.cons_append, processToolCalls, hf, hout, List.append_eq]
      rw [ih bad rest _ (fun x hx => h x (by simp [hx])) hbad]
      simp only [StepOut.err.injEq, LoopSt.mk.injEq]
      refine ⟨trivial, ?_, ?_, ?_, ?_, ?_⟩
      · simp [htcOut]
      · simp
        omega
      · trivial
      · simp [recordN]
      · simp

theorem runLoop_step_round (script : Nat → ModelMsg)
    (tools : String → Option (String → ToolRes)) (agent_name : String)
    (fuel : Nat) (st : LoopSt) (c0 : String) (tcs : List ToolCall)
    (hmsg : script st.iteration_count = ModelMsg.assistant c0 tcs)
    (hne : tcs.isEmpty = false)
    (hallok : ∀ tc ∈ tcs, tcOk tools tc = true) :
    runLoop script tools agent_name (fuel + 1) st =
      runLoop script tools agent_name fuel
        { messages := (postModel st agent_name c0).messages
            ++ tcs.map (fun tc => Msg.tool (tcOut tools tc) tc.id),
          tool_calls_count := (postModel st agent_name c0).tool_calls_count
            + tcs.length,
          iteration_count := (postModel st agent_name c0).iteration_count,
          tracker := recordN (postModel st agent_name c0).tracker agent_name
            tcs.length,
          trace := (postModel st agent_name c0).trace
            ++ tcs.map (fun tc => (tc.name, tc.args)) } := by
  simp only [runLoop, hmsg, hne, Bool.false_eq_true, if_false]
  rw [processToolCalls_ok tools agent_name tcs (postModel st agent_name c0) hallok]

theorem runLoop_complete (script : Nat → ModelMsg)
    (tools : String → Option (String → ToolRes)) (agent_name : String) :
    ∀ (count fuel : Nat) (st : LoopSt) (c : String),
      (∀ i, i < count → turnToolRound tools (script (st.iteration_count + i)) = true) →
      script (st.iteration_count + count) = ModelMsg.assistant c [] →
      count + 1 ≤ fuel →
      ∃ st2, runLoop script tools agent_name fuel st =
        RunOut.done
          { raw := c, iterations := st.iteration_count + count + 1,
            tool_calls := st.tool_calls_count
              + roundCalls script st.iteration_count count,
            agent := agent_name } st2 := by
  intro count
  induction count with
  | zero =>
      intro fuel st c _ hfin hfuel
      obtain ⟨f2, rfl⟩ : ∃ f2, fuel = f2 + 1 := ⟨fuel - 1, by omega⟩
      rw [Nat.add_zero] at hfin
      refine ⟨postModel st agent_name c, ?_⟩
      simp only [runLoop, hfin, List.isEmpty_nil, if_true]
      simp [postModel, roundCalls]
  | succ count ih =>
      intro fuel st c hrounds hfin hfuel
      obtain ⟨f2, rfl⟩ : ∃ f2, fuel = f2 + 1 := ⟨fuel - 1, by omega⟩
      have h0 : turnToolRound tools (script st.iteration_count) = true := by
        have h00 := hrounds 0 (by omega)
        rwa [Nat.add_zero] at h00
      cases hmsg : script st.iteration_count with
      | toolMsg tn ta tco =>
          rw [hmsg] at h0
          simp [turnToolRound] at h0
      | assistant c0 tcs =>
          rw [hmsg] at h0
          simp only [turnToolRound, Bool.and_eq_true] at h0
          obtain ⟨hne', hall⟩ := h0
          have hne : tcs.isEmpty = false := by
            cases h2 : tcs.isEmpty
            · rfl
            · rw [h2] at hne'
              simp at hne'
          have hallok : ∀ tc ∈ tcs, tcOk tools tc = true := by
            intro tc htcm
            exact List.all_eq_true.mp hall tc htcm
          rw [runLoop_step_round script tools agent_name f2 st c0 tcs hmsg hne hallok]
          obtain ⟨st2, heq⟩ := ih f2
            { messages := (postModel st agent_name c0).messages
                ++ tcs.map (fun tc => Msg.tool (tcOut tools tc) tc.id),
              tool_calls_count := (postModel st agent_name c0).tool_calls_count
                + tcs.length,
              iteration_count := (postModel st agent_name c0).iteration_count,
              tracker := recordN (postModel st agent_name c0).tracker agent_name
                tcs.length,
              trace := (postModel st agent_name c0).trace
                ++ tcs.map (fun tc => (tc.name, tc.args)) } c
            (by
              intro i hi
              have hidx : (postModel st agent_name c0).iteration_count + i
                  = st.iteration_count + (i + 1) := by
                simp only [postModel]
                omega
              rw [hidx]
              exact hrounds (i + 1) (by omega))
            (by
              have hidx : (postModel st agent_name c0).iteration_count + count
                  = st.iteration_count + (count + 1) := by
                simp only [postModel]
                omega
              rw [hidx]
              exact hfin)
            (by omega)
          refine ⟨st2, ?_⟩
          rw [heq]
          have hpc : (postModel st agent_name c0).iteration_count
              = st.iteration_count + 1 := by
            simp [postModel]
          have hpt : (postModel st agent_name c0).tool_calls_count
              = st.tool_calls_count := by
            simp [postModel]
          have hrc : roundCalls script st.iteration_count (count + 1)
              = tcs.length + roundCalls script (st.iteration_count + 1) count := by
            simp [roundCalls, hmsg, numCalls]
          simp only [hpc, hpt, hrc]
          have h1 : st.iteration_count + 1 + count + 1
              = st.iteration_count + (count + 1) + 1 := by omega
          have h2 : st.tool_calls_count + tcs.length
                + roundCalls script (st.iteration_count + 1) count
              = st.tool_calls_count
                + (tcs.length + roundCalls script (st.iteration_count + 1) count) := by
            omega
          rw [h1, h2]

theorem bApi_postModel_self (st : LoopSt) (agent_name c : String)
    (ha : isStageAgent agent_name) :
    bApi (postModel st agent_name c).tracker agent_name
      = bApi st.tracker agent_name + 1 := by
  show bApi ((st.tracker.record_iteration agent_name).record_api_call
    agent_name (tokenSum st.messages) (c.length / 4)) agent_name
    = bApi st.tracker agent_name + 1
  rw [bApi_record_api_call_self _ _ _ _ ha, bApi_record_iteration _ _ _ ha]

theorem bApi_postModel_total (st : LoopSt) (agent_name c : String)
    (ha : isStageAgent agent_name) :
    bApi (postModel st agent_name c).tracker "total"
      = bApi st.tracker "total" + 1 := by
  show bApi ((st.tracker.record_iteration agent_name).record_api_call
    agent_name (tokenSum st.messages) (c.length / 4)) "total"
    = bApi st.tracker "total" + 1
  rw [bApi_record_api_call_total _ _ _ _ ha, bApi_record_iteration _ _ _ ha]

theorem bTool_postModel (st : LoopSt) (agent_name c n : String)
    (ha : isStageAgent agent_name) :
    bTool (postModel st agent_name c).tracker n = bTool st.tracker n := by
  show bTool ((st.tracker.record_iteration agent_name).record_api_call
    agent_name (tokenSum st.messages) (c.length / 4)) n = bTool st.tracker n
  rw [bTool_record_api_call _ _ _ _ _ ha, bTool_record_iteration _ _ _ ha]

theorem runLoop_counters (script : Nat → ModelMsg)
    (tools : String → Option (String → ToolRes)) (agent_name : String)
    (ha : isStageAgent agent_name) :
    ∀ (count fuel : Nat) (st : LoopSt) (c : String),
      (∀ i, i < count → turnToolRound tools (script (st.iteration_count + i)) = true) →
      script (st.iteration_count + count) = ModelMsg.assistant c [] →
      count + 1 ≤ fuel →
      ∃ res st2, runLoop script tools agent_name fuel st = RunOut.done res st2 ∧
        res.iterations = st.iteration_count + count + 1 ∧
        res.tool_calls = st.tool_calls_count
          + roundCalls script st.iteration_count count ∧
        res.agent = agent_name ∧
        bApi st2.tracker agent_name = bApi st.tracker agent_name + (count + 1) ∧
        bApi st2.tracker "total" = bApi st.tracker "total" + (count + 1) ∧
        bTool st2.tracker agent_name = bTool st.tracker agent_name
          + roundCalls script st.iteration_count count ∧
        bTool st2.tracker "total" = bTool st.tracker "total"
          + roundCalls script st.iteration_count count := by
  intro count
  induction count with
  | zero =>
      intro fuel st c _ hfin hfuel
      obtain ⟨f2, rfl⟩ : ∃ f2, fuel = f2 + 1 := ⟨fuel - 1, by omega⟩
      rw [Nat.add_zero] at hfin
      refine ⟨{ raw := c, iterations := (postModel st agent_name c).iteration_count,
                tool_calls := (postModel st agent_name c).tool_calls_count,
                agent := agent_name },
              postModel st agent_name c, ?_, ?_, ?_, rfl, ?_, ?_, ?_, ?_⟩
      · simp only [runLoop, hfin, List.isEmpty_nil, if_true]
      · simp [postModel]
      · simp [postModel, roundCalls]
      · rw [bApi_postModel_self st agent_name c ha]
      · rw [bApi_postModel_total st agent_name c ha]
      · rw [bTool_postModel st agent_name c agent_name ha]
        simp [roundCalls]
      · rw [bTool_postModel st agent_name c "total" ha]
        simp [roundCalls]
  | succ count ih =>
      intro fuel st c hrounds hfin hfuel
      obtain ⟨f2, rfl⟩ : ∃ f2, fuel = f2 + 1 := ⟨fuel - 1, by omega⟩
      have h0 : turnToolRound tools (script st.iteration_count) = true := by
        have h00 := hrounds 0 (by omega)
        rwa [Nat.add_zero] at h00
      cases hmsg : script st.iteration_count with
      | toolMsg tn ta tco =>
          rw [hmsg] at h0
          simp [turnToolRound] at h0
      | assistant c0 tcs =>
          rw [hmsg] at h0
          simp only [turnToolRound, Bool.and_eq_true] at h0
          obtain ⟨hne', hall⟩ := h0
          have hne : tcs.isEmpty = false := by
            cases h2 : tcs.isEmpty
            · rfl
            · rw [h2] at hne'
              simp at hne'
          have hallok : ∀ tc ∈ tcs, tcOk tools tc = true := by
            intro tc htcm
            exact List.all_eq_true.mp hall tc htcm
          rw [runLoop_step_round script tools agent_name f2 st c0 tcs hmsg hne hallok]
          obtain ⟨res, st2, heq, hit, htc, hag, hA1, hA2, hT1, hT2⟩ := ih f2
            { messages := (postModel st agent_name c0).messages
                ++ tcs.map (fun tc => Msg.tool (tcOut tools tc) tc.id),
              tool_calls_count := (postModel st agent_name c0).tool_calls_count
                + tcs.length,
              iteration_count := (postModel st agent_name c0).iteration_count,
              tracker := recordN (postModel st agent_name c0).tracker agent_name
                tcs.length,
              trace := (postModel st agent_name c0).trace
                ++ tcs.map (fun tc => (tc.name, tc.args)) } c
            (by
              intro i hi
              show turnToolRound tools
                (script ((postModel st agent_name c0).iteration_count + i)) = true
              have hidx : (postModel st agent_name c0).iteration_count + i
                  = st.iteration_count + (i + 1) := by
                simp only [postModel]
                omega
              rw [hidx]
              exact hrounds (i + 1) (by omega))
            (by
              show script ((postModel st agent_name c0).iteration_count + count)
                = ModelMsg.assistant c []
              have hidx : (postModel st agent_name c0).iteration_count + count
                  = st.iteration_count + (count + 1) := by
                simp only [postModel]
                omega
              rw [hidx]
              exact hfin)
            (by omega)
          have hit2 : res.iterations = st.iteration_count + 1 + count + 1 := hit
          have htc2 : res.tool_calls = st.tool_calls_count + tcs.length
              + roundCalls script (st.iteration_count + 1) count := htc
          have hA12 : bApi st2.tracker agent_name
              = bApi (recordN (postModel st agent_name c0).tracker agent_name
                  tcs.length) agent_name + (count + 1) := hA1
          have hA22 : bApi st2.tracker "total"
              = bApi (recordN (postModel st agent_name c0).tracker agent_name
                  tcs.length) "total" + (count + 1) := hA2
          have hT12 : bTool st2.tracker agent_name
              = bTool (recordN (postModel st agent_name c0).tracker agent_name
                  tcs.length) agent_name
                + roundCalls script (st.iteration_count + 1) count := hT1
          have hT22 : bTool st2.tracker "total"
              = bTool (recordN (postModel st agent_name c0).tracker agent_name
                  tcs.length) "total"
                + roundCalls script (st.iteration_count + 1) count := hT2
          rw [bApi_recordN _ _ _ _ ha, bApi_postModel_self st agent_name c0 ha] at hA12
          rw [bApi_recordN _ _ _ _ ha, bApi_postModel_total st agent_name c0 ha] at hA22
          rw [bTool_recordN_self _ _ _ ha,
            bTool_postModel st agent_name c0 agent_name ha] at hT12
          rw [bTool_recordN_total _ _ _ ha,
            bTool_postModel st agent_name c0 "total" ha] at hT22
          have hrc : roundCalls script st.iteration_count (count + 1)
              = tcs.length + roundCalls script (st.iteration_count + 1) count := by
            simp [roundCalls, hmsg, numCalls]
          refine ⟨res, st2, heq, by omega, ?_, hag, by omega, by omega, ?_, ?_⟩
          · rw [hrc]
            omega
          · rw [hrc]
            omega
          · rw [hrc]
            omega

theorem runLoop_done_empty_turn (script : Nat → ModelMsg)
    (tools : String → Option (String → ToolRes)) (agent_name : String) :
    ∀ (fuel : Nat) (st : LoopSt) (res : AgentResult) (st2 : LoopSt),
      runLoop script tools agent_name fuel st = RunOut.done res st2 →
      ∃ c, script (res.iterations - 1) = ModelMsg.assistant c [] := by
  intro fuel
  induction fuel with
  | zero =>
      intro st res st2 h
      simp [runLoop] at h
  | succ fuel ih =>
      intro st res st2 h
      cases hmsg : script st.iteration_count with
      | assistant c tcs =>
          cases htcs : tcs.isEmpty
          · simp only [runLoop, hmsg, htcs, Bool.false_eq_true, if_false] at h
            cases hp : processToolCalls tools agent_name tcs (postModel st agent_name c) with
            | ok st3 =>
                rw [hp] at h
                exact ih st3 res st2 h
            | err e st3 =>
                rw [hp] at h
                simp at h
          · simp only [runLoop, hmsg, htcs, if_true] at h
            rw [RunOut.done.injEq] at h
            obtain ⟨hres, _⟩ := h
            have htcs2 : tcs = [] := List.isEmpty_iff.mp htcs
            refine ⟨c, ?_⟩
            have hiter : res.iterations = st.iteration_count + 1 := by
              rw [← hres]
              rfl
            rw [hiter]
            simp only [Nat.add_sub_cancel]
            rw [hmsg, htcs2]
      | toolMsg tn ta tco =>
          cases htool : tools tn with
          | none =>
              simp only [runLoop, hmsg, htool] at h
              simp at h
          | some f =>
              cases hout : f ta with
              | exn e =>
                  simp only [runLoop, hmsg, htool, hout] at h
                  simp at h
              | ok outv =>
                  simp only [runLoop, hmsg, htool, hout] at h
                  exact ih _ res st2 h

theorem runLoop_never_done (script : Nat → ModelMsg)
    (tools : String → Option (String → ToolRes)) (agent_name : String)
    (hall : ∀ i, turnHasCalls (script i) = true) :
    ∀ (fuel : Nat) (st : LoopSt) (res : AgentResult) (st2 : LoopSt),
      runLoop script tools agent_name fuel st ≠ RunOut.done res st2 := by
  intro fuel
  induction fuel with
  | zero =>
      intro st res st2 h
      simp [runLoop] at h
  | succ fuel ih =>
      intro st res st2 h
      cases hmsg : script st.iteration_count with
      | assistant c tcs =>
          have hcalls := hall st.iteration_count
          rw [hmsg] at hcalls
          have htcs : tcs.isEmpty = false := by
            cases h2 : tcs.isEmpty
            · rfl
            · rw [turnHasCalls, h2] at hcalls
              simp at hcalls
          simp only [runLoop, hmsg, htcs, Bool.false_eq_true, if_false] at h
          cases hp : processToolCalls tools agent_name tcs (postModel st agent_name c) with
          | ok st3 =>
              rw [hp] at h
              exact ih st3 res st2 h
          | err e st3 =>
              rw [hp] at h
              simp at h
      | toolMsg tn ta tco =>
          cases htool : tools tn with
          | none =>
              simp only [runLoop, hmsg, htool] at h
              simp at h
          | some f =>
              cases hout : f ta with
              | exn e =>
                  simp only [runLoop, hmsg, htool, hout] at h
                  simp at h
              | ok outv =>
                  simp only [runLoop, hmsg, htool, hout] at h
                  exact ih _ res st2 h

theorem runLoop_spent_forever (script : Nat → ModelMsg)
    (tools : String → Option (String → ToolRes)) (agent_name : String)
    (hall : ∀ i, turnToolRound tools (script i) = true) :
    ∀ (fuel : Nat) (st : LoopSt), ∃ st2,
      runLoop script tools agent_name fuel st = RunOut.spent st2 := by
  intro fuel
  induction fuel with
  | zero =>
      intro st
      exact ⟨st, by simp [runLoop]⟩
  | succ fuel ih =>
      intro st
      have h0 := hall st.iteration_count
      cases hmsg : script st.iteration_count with
      | toolMsg tn ta tco =>
          rw [hmsg] at h0
          simp [turnToolRound] at h0
      | assistant c0 tcs =>
          rw [hmsg] at h0
          simp only [turnToolRound, Bool.and_eq_true] at h0
          obtain ⟨hne', hall2⟩ := h0
          have hne : tcs.isEmpty = false := by
            cases h2 : tcs.isEmpty
            · rfl
            · rw [h2] at hne'
              simp at hne'
          have hallok : ∀ tc ∈ tcs, tcOk tools tc = true := by
            intro tc htcm
            exact List.all_eq_true.mp hall2 tc htcm
          rw [runLoop_step_round script tools agent_name fuel st c0 tcs hmsg hne hallok]
          exact ih _

theorem runLoop_unknown_tool (script : Nat → ModelMsg)
    (tools : String → Option (String → ToolRes)) (agent_name : String)
    (fuel : Nat) (st : LoopSt) (c : String)
    (pre : List ToolCall) (bad : ToolCall) (rest : List ToolCall)
    (hmsg : script st.iteration_count = ModelMsg.assistant c (pre ++ bad :: rest))
    (hpre : ∀ tc ∈ pre, tcOk tools tc = true)
    (hbad : tools bad.name = none) :
    runLoop script tools agent_name (fuel + 1) st =
      RunOut.fail (AgentErr.unknownTool bad.name)
        { messages := (postModel st agent_name c).messages
            ++ pre.map (fun tc => Msg.tool (tcOut tools tc) tc.id),
          tool_calls_count := (postModel st agent_name c).tool_calls_count
            + pre.length + 1,
          iteration_count := (postModel st agent_name c).iteration_count,
          tracker := recordN (postModel st agent_name c).tracker agent_name
            (pre.length + 1),
          trace := (postModel st agent_name c).trace
            ++ pre.map (fun tc => (tc.name, tc.args)) } := by
  have hne : (pre ++ bad :: rest).isEmpty = false := by
    simp
  simp only [runLoop, hmsg, hne, Bool.false_eq_true, if_false]
  rw [processToolCalls_unknown tools agent_name pre bad rest
    (postModel st agent_name c) hpre hbad]

/-- Claim C1 (counterexample): the claim quantifies over any agent-name
argument, but passing `"total"` itself to `record_api_call` increments
the total bucket twice (once as the addressed bucket, once as the
running total) while every non-total bucket stays zero, so afterwards
the total bucket is not the pointwise sum of the non-total buckets. -/
theorem c1_total_sum_counterexample :
    ¬ (findA (applyOps (MetricsTracker.new "s")
          [MOp.api_call "total" 1 1]).metrics "total"
        = some (sumNT (applyOps (MetricsTracker.new "s")
          [MOp.api_call "total" 1 1]).metrics)) := by
  decide

/-- Claim C1 (amended): for every tracker state reachable from a freshly
constructed `metrics_utils.MetricsTracker` by any interleaving of
`record_api_call`, `record_tool_call`, `record_iteration` and
`record_error` calls whose agent-name argument is never the reserved
name `"total"` (token arguments are naturals, hence non-negative), the
total bucket equals the pointwise sum of all non-total buckets. -/
theorem c1_total_sum_invariant (sid : String) (ops : List MOp)
    (hops : ∀ op ∈ ops, op.agentName ≠ "total") :
    findA (applyOps (MetricsTracker.new sid) ops).metrics "total"
      = some (sumNT (applyOps (MetricsTracker.new sid) ops).metrics) :=
  (metricsInv_applyOps ops (MetricsTracker.new sid) hops (metricsInv_new sid)).2

theorem c1_total_sum_invariant_witness :
    findA (applyOps (MetricsTracker.new "s") demoOps).metrics "total"
      = some (sumNT (applyOps (MetricsTracker.new "s") demoOps).metrics) :=
  c1_total_sum_invariant "s" demoOps (by decide)

/-- Claim C4 (counterexample): the claim says every `record_*` method
auto-creates a zeroed bucket for an unknown agent name, but
`metrics_utils.record_tool_call` with the unknown name `"ghost"` leaves
the tracker completely unchanged and creates no `"ghost"` bucket. -/
theorem c4_autocreate_counterexample :
    (MetricsTracker.new "s").record_tool_call "ghost" "write_file"
        = MetricsTracker.new "s" ∧
    findA ((MetricsTracker.new "s").record_tool_call "ghost"
        "write_file").metrics "ghost" = none := by
  decide

/-- Claim C4 (amended): only `record_api_call` tolerates an unknown
agent name by auto-creating a zeroed bucket and recording the increment
into it and into the total; `record_tool_call`, `record_iteration` and
`record_error` return without touching anything when the agent name has
no bucket. -/
theorem c4_autocreate_amended (tr : MetricsTracker) (name : String)
    (i o : Nat) (tn em : String) (bt : AgentMetrics)
    (hnone : findA tr.metrics name = none)
    (htot : findA tr.metrics "total" = some bt) :
    findA (tr.record_api_call name i o).metrics name
        = some (AgentMetrics.zero.add_api_call i o) ∧
    findA (tr.record_api_call name i o).metrics "total"
        = some (bt.add_api_call i o) ∧
    tr.record_tool_call name tn = tr ∧
    tr.record_iteration name = tr ∧
    tr.record_error name em = tr := by
  have hname : name ≠ "total" := by
    intro h
    rw [h, htot] at hnone
    exact Option.noConfusion hnone
  have hisNone : (findA tr.metrics name).isNone = true := by
    rw [hnone]
    rfl
  refine ⟨?_, ?_, ?_, ?_, ?_⟩
  · simp only [MetricsTracker.record_api_call, hisNone, if_pos]
    rw [findA_updA_ne _ _ _ _ hname,
      findA_updA_self, findA_append_singleton_of_none _ _ _ hnone]
    rfl
  · simp only [MetricsTracker.record_api_call, hisNone, if_pos]
    rw [findA_updA_self, findA_updA_ne _ _ _ _ (Ne.symm hname),
      findA_append_of_some _ _ _ _ htot]
    rfl
  · simp [MetricsTracker.record_tool_call, hnone]
  · simp [MetricsTracker.record_iteration, hnone]
  · simp [MetricsTracker.record_error, hnone]

theorem c4_autocreate_amended_witness :
    findA ((MetricsTracker.new "s").record_api_call "ghost" 3 4).metrics "ghost"
        = some (AgentMetrics.zero.add_api_call 3 4) ∧
    findA ((MetricsTracker.new "s").record_api_call "ghost" 3 4).metrics "total"
        = some (AgentMetrics.zero.add_api_call 3 4) ∧
    (MetricsTracker.new "s").record_tool_call "ghost" "write_file"
        = MetricsTracker.new "s" ∧
    (MetricsTracker.new "s").record_iteration "ghost" = MetricsTracker.new "s" ∧
    (MetricsTracker.new "s").record_error "ghost" "boom"
        = MetricsTracker.new "s" :=
  c4_autocreate_amended (MetricsTracker.new "s") "ghost" 3 4 "write_file" "boom"
    AgentMetrics.zero (by decide) (by decide)

/-- Claim C9: every bucket of every tracker state reachable from a
freshly constructed (or reset) `metrics_utils.MetricsTracker` by any
sequence of `record_*` calls satisfies
`total_tokens = input_tokens + output_tokens`. -/
theorem c9_total_tokens_consistent (start : MetricsTracker) (ops : List MOp)
    (hstart : (∃ sid, start = MetricsTracker.new sid)
      ∨ ∃ (tr0 : MetricsTracker) (sid : String), start = tr0.reset sid)
    (name : String) (b : AgentMetrics)
    (hfind : findA (applyOps start ops).metrics name = some b) :
    b.total_tokens = b.input_tokens + b.output_tokens := by
  have hstart2 : allTok start.metrics := by
    rcases hstart with ⟨sid, rfl⟩ | ⟨tr0, sid, rfl⟩
    · exact allTok_new sid
    · exact allTok_reset tr0 sid
  exact allTok_applyOps ops start hstart2 (name, b) (findA_some_mem _ _ _ hfind)

theorem c9_total_tokens_consistent_witness :
    ∃ b, findA (applyOps (MetricsTracker.new "s") demoOps).metrics "total"
        = some b ∧
      b.total_tokens = b.input_tokens + b.output_tokens := by
  obtain ⟨b, hb⟩ : ∃ b, findA (applyOps (MetricsTracker.new "s")
      demoOps).metrics "total" = some b := ⟨_, rfl⟩
  exact ⟨b, hb, c9_total_tokens_consistent (MetricsTracker.new "s") demoOps
    (Or.inl ⟨"s", rfl⟩) "total" b hb⟩

/-- Claim C10: in `metrics_utils.MetricsTracker`, calling
`record_tool_call`, `record_iteration` or `record_error` with an agent
name that has no bucket is a complete no-op (the tracker state is
unchanged and nothing is raised, the model being total); and every
`record_*` method of the `system_runner2.MetricsTracker` leaves the
tracker unchanged for an agent name outside
planner/developer/tester/total. -/
theorem c10_unknown_agent_noop (tr : MetricsTracker) (tr2 : MetricsTracker2)
    (name tn em : String) (i o : Nat)
    (h1 : findA tr.metrics name = none)
    (h2 : name ≠ "planner" ∧ name ≠ "developer" ∧ name ≠ "tester"
      ∧ name ≠ "total") :
    tr.record_tool_call name tn = tr ∧
    tr.record_iteration name = tr ∧
    tr.record_error name em = tr ∧
    tr2.record_api_call name i o = tr2 ∧
    tr2.record_tool_call name = tr2 ∧
    tr2.record_iteration name = tr2 := by
  obtain ⟨hp, hd, ht, htot⟩ := h2
  have hget : tr2.getB name = none := by
    simp [MetricsTracker2.getB, hp, hd, ht, htot]
  refine ⟨?_, ?_, ?_, ?_, ?_, ?_⟩
  · simp [MetricsTracker.record_tool_call, h1]
  · simp [MetricsTracker.record_iteration, h1]
  · simp [MetricsTracker.record_error, h1]
  · simp [MetricsTracker2.record_api_call, hget]
  · simp [MetricsTracker2.record_tool_call, hget]
  · simp [MetricsTracker2.record_iteration, hget]

theorem c10_unknown_agent_noop_witness :
    (MetricsTracker.new "s").record_tool_call "ghost" "write_file"
        = MetricsTracker.new "s" ∧
    (MetricsTracker.new "s").record_iteration "ghost" = MetricsTracker.new "s" ∧
    (MetricsTracker.new "s").record_error "ghost" "boom"
        = MetricsTracker.new "s" ∧
    MetricsTracker2.new.record_api_call "ghost" 3 4 = MetricsTracker2.new ∧
    MetricsTracker2.new.record_tool_call "ghost" = MetricsTracker2.new ∧
    MetricsTracker2.new.record_iteration "ghost" = MetricsTracker2.new :=
  c10_unknown_agent_noop (MetricsTracker.new "s") MetricsTracker2.new "ghost"
    "write_file" "boom" 3 4 (by decide) (by decide)

/-- Claim C2: for every run of the agent loop in which the model emits
exactly N assistant turns that are successful tool rounds followed by
one assistant turn with zero tool calls, the returned result's
iteration count is exactly N + 1 (and its tool-call count is the total
number of requests of the N rounds, which is 0 when N = 0: a tool-less
first turn returns after one model call with iteration_count 1 and
tool_call_count 0). -/
theorem c2_iteration_count (script : Nat → ModelMsg)
    (tools : String → Option (String → ToolRes))
    (input_content system_prompt agent_name : String) (tr : MetricsTracker2)
    (N fuel : Nat) (c : String)
    (hrounds : ∀ i, i < N → turnToolRound tools (script i) = true)
    (hfin : script N = ModelMsg.assistant c [])
    (hfuel : N + 1 ≤ fuel) :
    ∃ st2, run_agent script tools input_content system_prompt agent_name tr fuel
      = RunOut.done
          { raw := c, iterations := N + 1, tool_calls := roundCalls script 0 N,
            agent := agent_name } st2 := by
  obtain ⟨st2, heq⟩ := runLoop_complete script tools agent_name N fuel
    { messages := [Msg.system system_prompt, Msg.human input_content],
      tool_calls_count := 0, iteration_count := 0, tracker := tr, trace := [] } c
    (by
      intro i hi
      show turnToolRound tools (script (0 + i)) = true
      rw [Nat.zero_add]
      exact hrounds i hi)
    (by
      show script (0 + N) = ModelMsg.assistant c []
      rw [Nat.zero_add]
      exact hfin)
    hfuel
  have heq2 : run_agent script tools input_content system_prompt agent_name tr fuel
      = RunOut.done
          { raw := c, iterations := 0 + N + 1,
            tool_calls := 0 + roundCalls script 0 N, agent := agent_name } st2 := heq
  rw [heq2]
  simp

theorem c2_iteration_count_witness :
    ∃ st2, run_agent demoScript demoTools "input" "sys" "developer"
        MetricsTracker2.new 5
      = RunOut.done
          { raw := "done", iterations := 2,
            tool_calls := roundCalls demoScript 0 1, agent := "developer" } st2 :=
  c2_iteration_count demoScript demoTools "input" "sys" "developer"
    MetricsTracker2.new 1 5 "done"
    (by
      intro i hi
      have h0 : i = 0 := by omega
      subst h0
      decide)
    (by decide)
    (by omega)

/-- Claim C3: a completed run with M successful tool rounds and a final
tool-less turn (M + 1 model turns in total) records exactly one API
call per model turn and one tool-call metric per request into the
stage agent's bucket and the total bucket of the `system_runner2`
tracker, and returns `tool_call_count` equal to the total number of
requests K; in the spec's scenario (one `write_file` round then a
tool-less turn) this gives iteration_count 2, tool_call_count 1,
total.api_calls + 2, total.tool_calls + 1. -/
theorem c3_metrics_per_turn (script : Nat → ModelMsg)
    (tools : String → Option (String → ToolRes))
    (input_content system_prompt agent_name : String) (tr : MetricsTracker2)
    (M fuel : Nat) (c : String)
    (ha : isStageAgent agent_name)
    (hrounds : ∀ i, i < M → turnToolRound tools (script i) = true)
    (hfin : script M = ModelMsg.assistant c [])
    (hfuel : M + 1 ≤ fuel) :
    ∃ res st2,
      run_agent script tools input_content system_prompt agent_name tr fuel
        = RunOut.done res st2 ∧
      res.iterations = M + 1 ∧
      res.tool_calls = roundCalls script 0 M ∧
      bApi st2.tracker agent_name = bApi tr agent_name + (M + 1) ∧
      bApi st2.tracker "total" = bApi tr "total" + (M + 1) ∧
      bTool st2.tracker agent_name = bTool tr agent_name + roundCalls script 0 M ∧
      bTool st2.tracker "total" = bTool tr "total" + roundCalls script 0 M := by
  obtain ⟨res, st2, heq, hit, htc, _, hA1, hA2, hT1, hT2⟩ :=
    runLoop_counters script tools agent_name ha M fuel
      { messages := [Msg.system system_prompt, Msg.human input_content],
        tool_calls_count := 0, iteration_count := 0, tracker := tr, trace := [] } c
      (by
        intro i hi
        show turnToolRound tools (script (0 + i)) = true
        rw [Nat.zero_add]
        exact hrounds i hi)
      (by
        show script (0 + M) = ModelMsg.assistant c []
        rw [Nat.zero_add]
        exact hfin)
      hfuel
  have hit2 : res.iterations = 0 + M + 1 := hit
  have htc2 : res.tool_calls = 0 + roundCalls script 0 M := htc
  have hA12 : bApi st2.tracker agent_name = bApi tr agent_name + (M + 1) := hA1
  have hA22 : bApi st2.tracker "total" = bApi tr "total" + (M + 1) := hA2
  have hT12 : bTool st2.tracker agent_name
      = bTool tr agent_name + roundCalls script 0 M := hT1
  have hT22 : bTool st2.tracker "total"
      = bTool tr "total" + roundCalls script 0 M := hT2
  exact ⟨res, st2, heq, by omega, by omega, hA12, hA22, hT12, hT22⟩

theorem c3_metrics_per_turn_witness :
    ∃ res st2,
      run_agent demoScript demoTools "input" "sys" "developer"
          MetricsTracker2.new 5 = RunOut.done res st2 ∧
      res.iterations = 2 ∧
      res.tool_calls = 1 ∧
      bApi st2.tracker "developer" = 2 ∧
      bApi st2.tracker "total" = 2 ∧
      bTool st2.tracker "developer" = 1 ∧
      bTool st2.tracker "total" = 1 := by
  obtain ⟨res, st2, heq, h1, h2, h3, h4, h5, h6⟩ :=
    c3_metrics_per_turn demoScript demoTools "input" "sys" "developer"
      MetricsTracker2.new 1 5 "done" (Or.inr (Or.inl rfl))
      (by
        intro i hi
        have h0 : i = 0 := by omega
        subst h0
        decide)
      (by decide)
      (by omega)
  exact ⟨res, st2, heq, h1, h2, h3, h4, h5, h6⟩

/-- Claim C5: when an assistant turn's requests split as
`pre ++ bad :: rest` with every request of `pre` succeeding and the
tool name of `bad` unresolved, the loop fails as a whole with an
unknown-tool error carrying the offending name, and the final state
shows that `bad` was never executed and no request of `rest` was
processed: the execution trace and the appended Tool messages cover
exactly `pre` (the failing request is still counted once, matching the
metric recorded before resolution); the failure is immediate and not
retried for any remaining fuel. -/
theorem c5_unknown_tool_fails (script : Nat → ModelMsg)
    (tools : String → Option (String → ToolRes)) (agent_name : String)
    (fuel : Nat) (st : LoopSt) (c : String)
    (pre : List ToolCall) (bad : ToolCall) (rest : List ToolCall)
    (hmsg : script st.iteration_count = ModelMsg.assistant c (pre ++ bad :: rest))
    (hpre : ∀ tc ∈ pre, tcOk tools tc = true)
    (hbad : tools bad.name = none) :
    ∃ st2, runLoop script tools agent_name (fuel + 1) st
        = RunOut.fail (AgentErr.unknownTool bad.name) st2 ∧
      st2.trace = st.trace ++ pre.map (fun tc => (tc.name, tc.args)) ∧
      st2.messages = st.messages
        ++ pre.map (fun tc => Msg.tool (tcOut tools tc) tc.id) ∧
      st2.tool_calls_count = st.tool_calls_count + pre.length + 1 := by
  refine ⟨_, runLoop_unknown_tool script tools agent_name fuel st c pre bad rest
    hmsg hpre hbad, rfl, rfl, rfl⟩

theorem c5_unknown_tool_fails_witness :
    ∃ st2, runLoop demoScriptBad demoTools "planner" 4 demoStart
        = RunOut.fail (AgentErr.unknownTool "make_coffee") st2 ∧
      st2.trace = demoStart.trace ++ [wfCall].map (fun tc => (tc.name, tc.args)) ∧
      st2.messages = demoStart.messages
        ++ [wfCall].map (fun tc => Msg.tool (tcOut demoTools tc) tc.id) ∧
      st2.tool_calls_count = demoStart.tool_calls_count + 1 + 1 :=
  c5_unknown_tool_fails demoScriptBad demoTools "planner" 3 demoStart "trying"
    [wfCall] badCall [rfCall] (by decide)
    (by
      intro tc htc
      simp only [List.mem_singleton] at htc
      subst htc
      decide)
    rfl

/-- Claim C7: an assistant turn carrying the (non-empty) requests `tcs`,
all resolvable and succeeding, makes the loop process them one at a
time in exactly the order the model emitted them: before the next model
turn is submitted, exactly one Tool message per request is appended, in
emission order, carrying the serialized result of that request
correlated to its call id, the tool-call counter grows by the number of
requests, the tracker records one iteration, one API call and one
tool-call metric per request, and the execution trace extends by the
requests' `(name, args)` pairs in emission order. -/
theorem c7_in_order_dispatch (script : Nat → ModelMsg)
    (tools : String → Option (String → ToolRes)) (agent_name : String)
    (fuel : Nat) (st : LoopSt) (c : String) (tcs : List ToolCall)
    (hmsg : script st.iteration_count = ModelMsg.assistant c tcs)
    (hne : tcs.isEmpty = false)
    (hallok : ∀ tc ∈ tcs, tcOk tools tc = true) :
    runLoop script tools agent_name (fuel + 1) st =
      runLoop script tools agent_name fuel
        { messages := st.messages
            ++ tcs.map (fun tc => Msg.tool (tcOut tools tc) tc.id),
          tool_calls_count := st.tool_calls_count + tcs.length,
          iteration_count := st.iteration_count + 1,
          tracker := recordN
            ((st.tracker.record_iteration agent_name).record_api_call agent_name
              (tokenSum st.messages) (c.length / 4)) agent_name tcs.length,
          trace := st.trace ++ tcs.map (fun tc => (tc.name, tc.args)) } := by
  rw [runLoop_step_round script tools agent_name fuel st c tcs hmsg hne hallok]
  rfl

theorem c7_in_order_dispatch_witness :
    runLoop demoScriptMulti demoTools "developer" 4 demoStart =
      runLoop demoScriptMulti demoTools "developer" 3
        { messages := demoStart.messages
            ++ [wfCall, rfCall].map (fun tc => Msg.tool (tcOut demoTools tc) tc.id),
          tool_calls_count := demoStart.tool_calls_count + 2,
          iteration_count := demoStart.iteration_count + 1,
          tracker := recordN
            ((demoStart.tracker.record_iteration "developer").record_api_call
              "developer" (tokenSum demoStart.messages) ("working".length / 4))
            "developer" 2,
          trace := demoStart.trace
            ++ [wfCall, rfCall].map (fun tc => (tc.name, tc.args)) } :=
  c7_in_order_dispatch demoScriptMulti demoTools "developer" 3 demoStart
    "working" [wfCall, rfCall] (by decide) (by decide)
    (by
      intro tc htc
      simp only [List.mem_cons, List.mem_singleton] at htc
      rcases htc with h | h | h
      · subst h
        decide
      · subst h
        decide
      · cases h)

/-- Claim C8: the Thinking/ToolDispatch cycle has no maximum-iteration
guard.  First, the loop returns a result only by consuming a model turn
with zero tool-call requests (the turn at index `iterations - 1`).
Second, against a model that puts at least one tool-call request in
every turn, no amount of fuel makes the loop return a result.  Third,
against a model whose every turn is a successful tool round, the loop
neither returns nor fails under any fuel: it is still running when any
finite fuel runs out, i.e. it never terminates. -/
theorem c8_no_iteration_cap (script : Nat → ModelMsg)
    (tools : String → Option (String → ToolRes)) (agent_name : String) :
    (∀ (fuel : Nat) (st : LoopSt) (res : AgentResult) (st2 : LoopSt),
        runLoop script tools agent_name fuel st = RunOut.done res st2 →
        ∃ c, script (res.iterations - 1) = ModelMsg.assistant c []) ∧
    ((∀ i, turnHasCalls (script i) = true) →
      ∀ (fuel : Nat) (st : LoopSt) (res : AgentResult) (st2 : LoopSt),
        runLoop script tools agent_name fuel st ≠ RunOut.done res st2) ∧
    ((∀ i, turnToolRound tools (script i) = true) →
      ∀ (fuel : Nat) (st : LoopSt), ∃ st2,
        runLoop script tools agent_name fuel st = RunOut.spent st2) :=
  ⟨runLoop_done_empty_turn script tools agent_name,
   fun h => runLoop_never_done script tools agent_name h,
   fun h => runLoop_spent_forever script tools agent_name h⟩

theorem c8_no_iteration_cap_witness :
    (∃ st2, runLoop demoScriptLoop demoTools "planner" 7 demoStart
        = RunOut.spent st2) ∧
    (∀ res st2, runLoop demoScriptLoop demoTools "planner" 7 demoStart
        ≠ RunOut.done res st2) := by
  have h := c8_no_iteration_cap demoScriptLoop demoTools "planner"
  exact ⟨h.2.2 (fun i => rfl) 7 demoStart,
         fun res st2 => h.2.1 (fun i => rfl) 7 demoStart res st2⟩

/-- Claim C6: whenever any stage of the pipeline fails, `run_system`
ends the metrics tracking (freezing `end_time` at the failure-time
reading), reports the summary of the finalized tracker, and re-raises
exactly the stage's error; no `PipelineResult` (not even a partial one)
is returned.  The first conjunct characterizes every error outcome; the
other three show that a failure of the planner, developer or tester
stage respectively produces exactly that outcome, discarding the
completed stages' results. -/
theorem c6_failure_finalizes_metrics (pEnv dEnv tEnv : StageEnv)
    (pPrompt dPrompt tPrompt input0 : String)
    (serDev serTest : AgentResult → String) (tr0 : MetricsTracker2)
    (tStart tEnd : Nat) :
    (∀ e s trf, run_system pEnv dEnv tEnv pPrompt dPrompt tPrompt input0
        serDev serTest tr0 tStart tEnd = SysOut.err e s trf →
      trf.end_time = some tEnd ∧ s = trf.get_summary ∧
      ∀ pr tr2, run_system pEnv dEnv tEnv pPrompt dPrompt tPrompt input0
        serDev serTest tr0 tStart tEnd ≠ SysOut.ok pr tr2) ∧
    (∀ e st, run_agent pEnv.script pEnv.tools input0 pPrompt "planner"
        (tr0.start_tracking tStart) pEnv.fuel = RunOut.fail e st →
      run_system pEnv dEnv tEnv pPrompt dPrompt tPrompt input0 serDev serTest
          tr0 tStart tEnd
        = SysOut.err e (st.tracker.end_tracking tEnd).get_summary
            (st.tracker.end_tracking tEnd)) ∧
    (∀ plan st e st2,
      run_agent pEnv.script pEnv.tools input0 pPrompt "planner"
        (tr0.start_tracking tStart) pEnv.fuel = RunOut.done plan st →
      run_agent dEnv.script dEnv.tools (serDev plan) dPrompt "developer"
        st.tracker dEnv.fuel = RunOut.fail e st2 →
      run_system pEnv dEnv tEnv pPrompt dPrompt tPrompt input0 serDev serTest
          tr0 tStart tEnd
        = SysOut.err e (st2.tracker.end_tracking tEnd).get_summary
            (st2.tracker.end_tracking tEnd)) ∧
    (∀ plan st code st2 e st3,
      run_agent pEnv.script pEnv.tools input0 pPrompt "planner"
        (tr0.start_tracking tStart) pEnv.fuel = RunOut.done plan st →
      run_agent dEnv.script dEnv.tools (serDev plan) dPrompt "developer"
        st.tracker dEnv.fuel = RunOut.done code st2 →
      run_agent tEnv.script tEnv.tools (serTest code) tPrompt "tester"
        st2.tracker tEnv.fuel = RunOut.fail e st3 →
      run_system pEnv dEnv tEnv pPrompt dPrompt tPrompt input0 serDev serTest
          tr0 tStart tEnd
        = SysOut.err e (st3.tracker.end_tracking tEnd).get_summary
            (st3.tracker.end_tracking tEnd)) := by
  refine ⟨?_, ?_, ?_, ?_⟩
  · intro e s trf h
    refine ⟨?_, ?_, ?_⟩
    · -- end_time is frozen on every error outcome
      have h2 := h
      simp only [run_system] at h2
      cases hp : run_agent pEnv.script pEnv.tools input0 pPrompt "planner"
          (tr0.start_tracking tStart) pEnv.fuel with
      | spent st =>
          simp only [hp] at h2
          exact SysOut.noConfusion h2
      | fail e2 st =>
          simp only [hp, SysOut.err.injEq] at h2
          rw [← h2.2.2]
          rfl
      | done plan st =>
          cases hd : run_agent dEnv.script dEnv.tools (serDev plan) dPrompt
              "developer" st.tracker dEnv.fuel with
          | spent st2 =>
              simp only [hp, hd] at h2
              exact SysOut.noConfusion h2
          | fail e2 st2 =>
              simp only [hp, hd, SysOut.err.injEq] at h2
              rw [← h2.2.2]
              rfl
          | done code st2 =>
              cases ht : run_agent tEnv.script tEnv.tools (serTest code) tPrompt
                  "tester" st2.tracker tEnv.fuel with
              | spent st3 =>
                  simp only [hp, hd, ht] at h2
                  exact SysOut.noConfusion h2
              | fail e2 st3 =>
                  simp only [hp, hd, ht, SysOut.err.injEq] at h2
                  rw [← h2.2.2]
                  rfl
              | done tests st3 =>
                  simp only [hp, hd, ht] at h2
                  exact SysOut.noConfusion h2
    · -- the reported summary is the finalized tracker's summary
      have h2 := h
      simp only [run_system] at h2
      cases hp : run_agent pEnv.script pEnv.tools input0 pPrompt "planner"
          (tr0.start_tracking tStart) pEnv.fuel with
      | spent st =>
          simp only [hp] at h2
          exact SysOut.noConfusion h2
      | fail e2 st =>
          simp only [hp, SysOut.err.injEq] at h2
          rw [← h2.2.2, ← h2.2.1]
      | done plan st =>
          cases hd : run_agent dEnv.script dEnv.tools (serDev plan) dPrompt
              "developer" st.tracker dEnv.fuel with
          | spent st2 =>
              simp only [hp, hd] at h2
              exact SysOut.noConfusion h2
          | fail e2 st2 =>
              simp only [hp, hd, SysOut.err.injEq] at h2
              rw [← h2.2.2, ← h2.2.1]
          | done code st2 =>
              cases ht : run_agent tEnv.script tEnv.tools (serTest code) tPrompt
                  "tester" st2.tracker tEnv.fuel with
              | spent st3 =>
                  simp only [hp, hd, ht] at h2
                  exact SysOut.noConfusion h2
              | fail e2 st3 =>
                  simp only [hp, hd, ht, SysOut.err.injEq] at h2
                  rw [← h2.2.2, ← h2.2.1]
              | done tests st3 =>
                  simp only [hp, hd, ht] at h2
                  exact SysOut.noConfusion h2
    · intro pr tr2 hok
      rw [h] at hok
      exact SysOut.noConfusion hok
  · intro e st hfail
    simp only [run_system, hfail]
  · intro plan st e st2 hplan hdev
    simp only [run_system, hplan, hdev]
  · intro plan st code st2 e st3 hplan hdev htest
    simp only [run_system, hplan, hdev, htest]

theorem c6_failure_finalizes_metrics_witness :
    ∃ st, run_agent demoEnvBad.script demoEnvBad.tools "input" "p" "planner"
        (MetricsTracker2.new.start_tracking 3) demoEnvBad.fuel
      = RunOut.fail (AgentErr.unknownTool "make_coffee") st ∧
      run_system demoEnvBad demoEnvBad demoEnvBad "p" "d" "t" "input" demoSer
          demoSer MetricsTracker2.new 3 9
        = SysOut.err (AgentErr.unknownTool "make_coffee")
            (st.tracker.end_tracking 9).get_summary
            (st.tracker.end_tracking 9) := by
  obtain ⟨st, hst⟩ : ∃ st, run_agent demoEnvBad.script demoEnvBad.tools "input"
      "p" "planner" (MetricsTracker2.new.start_tracking 3) demoEnvBad.fuel
      = RunOut.fail (AgentErr.unknownTool "make_coffee") st := ⟨_, rfl⟩
  exact ⟨st, hst, (c6_failure_finalizes_metrics demoEnvBad demoEnvBad demoEnvBad
    "p" "d" "t" "input" demoSer demoSer MetricsTracker2.new 3 9).2.1
    (AgentErr.unknownTool "make_coffee") st hst⟩
